import Mathlib

/-
Verification of the T-Dui terminal task tracker core (src/src/app.rs,
src/src/models/todo.rs, src/src/storage/file_storage.rs).

Shallow embedding conventions:
- chrono NaiveDate is modelled by the structure Date (proleptic Gregorian
  year/month/day); adding or subtracting chrono Durations of n days is
  modelled by n-fold iteration of the calendar successor/predecessor.
- chrono DateTime<Utc> timestamps are modelled as Nat tick counts; the
  implicit clock calls Local::now()/Utc::now() become explicit (today, now)
  parameters of the functions that use them.
- FileStorage is modelled inside AppState by a persisted field (the file
  contents; load_todos returns it on the success path, the code maps load
  failures to the empty list) and a save_count field counting save_todos
  calls; save_todos overwrites persisted with its argument, exactly as the
  file is overwritten.
- Rust u16 scroll counters are modelled as Nat (saturating_sub becomes Nat
  subtraction); no claim concerns scroll saturation at the top end.
-/

namespace TDui

/-! ## Dates (chrono NaiveDate) -/

structure Date where
  year : Int
  month : Nat
  day : Nat
deriving DecidableEq

/-- Gregorian leap year rule, as used by chrono for NaiveDate. -/
def isLeapYear (y : Int) : Bool :=
  y % 4 == 0 && (y % 100 != 0 || y % 400 == 0)

/-- Number of days in a month of the proleptic Gregorian calendar. -/
def daysInMonth (y : Int) (m : Nat) : Nat :=
  if m = 1 then 31
  else if m = 2 then (if isLeapYear y then 29 else 28)
  else if m = 3 then 31
  else if m = 4 then 30
  else if m = 5 then 31
  else if m = 6 then 30
  else if m = 7 then 31
  else if m = 8 then 31
  else if m = 9 then 30
  else if m = 10 then 31
  else if m = 11 then 30
  else if m = 12 then 31
  else 0

/-- A Date is valid when it denotes an actual calendar day, the invariant
chrono maintains for every NaiveDate value. -/
def Date.Valid (d : Date) : Prop :=
  1 ≤ d.month ∧ d.month ≤ 12 ∧ 1 ≤ d.day ∧ d.day ≤ daysInMonth d.year d.month

instance (d : Date) : Decidable d.Valid := by
  unfold Date.Valid; exact inferInstance

/-- Next calendar day (chrono: date + Duration::days(1)). -/
def succDay (d : Date) : Date :=
  if d.day < daysInMonth d.year d.month then
    { d with day := d.day + 1 }
  else if d.month < 12 then
    { year := d.year, month := d.month + 1, day := 1 }
  else
    { year := d.year + 1, month := 1, day := 1 }

/-- Previous calendar day (chrono: date - Duration::days(1)). -/
def predDay (d : Date) : Date :=
  if 1 < d.day then
    { d with day := d.day - 1 }
  else if 1 < d.month then
    { year := d.year, month := d.month - 1, day := daysInMonth d.year (d.month - 1) }
  else
    { year := d.year - 1, month := 12, day := 31 }

/-- chrono date + Duration::days(n) for n ≥ 0. -/
def plusDays (n : Nat) (d : Date) : Date := succDay^[n] d

/-- chrono date - Duration::days(n) for n ≥ 0. -/
def minusDays (n : Nat) (d : Date) : Date := predDay^[n] d

/-- Linear index of a date's (year, month) pair; two dates are in the same
calendar month iff their indices agree, and adjacent months differ by 1. -/
def monthIdx (d : Date) : Int := d.year * 12 + (d.month : Int) - 1

/-- Chronological comparison of two dates, the Ord instance of NaiveDate. -/
def compareDate (a b : Date) : Ordering :=
  if a.year < b.year then .lt
  else if b.year < a.year then .gt
  else if a.month < b.month then .lt
  else if b.month < a.month then .gt
  else if a.day < b.day then .lt
  else if b.day < a.day then .gt
  else .eq

/-- Comparison of Nat timestamps (the Ord instance of DateTime<Utc>). -/
def cmpNat (a b : Nat) : Ordering :=
  if a < b then .lt else if b < a then .gt else .eq

/-- Strict chronological order on dates, spelled out on fields. -/
def dateLtP (a b : Date) : Prop :=
  a.year < b.year ∨
    (a.year = b.year ∧ (a.month < b.month ∨ (a.month = b.month ∧ a.day < b.day)))

/-- Left-padded decimal rendering of a Nat, for the %m, %d, %Y fields. -/
def padNat (w n : Nat) : String :=
  let s := toString n
  String.mk (List.replicate (w - s.length) '0') ++ s

/-- Rendering of a date in the fixed %Y-%m-%d format used by the app.
chrono's %Y zero-pads to 4 digits, prefixes negative years with a minus
sign and years of five or more digits with an explicit plus sign. -/
def formatDate (d : Date) : String :=
  (if d.year < 0 then "-" ++ padNat 4 d.year.natAbs
   else if 10000 ≤ d.year then "+" ++ padNat 4 d.year.natAbs
   else padNat 4 d.year.natAbs)
    ++ "-" ++ padNat 2 d.month ++ "-" ++ padNat 2 d.day

/-! ## Parsing %Y-%m-%d (chrono NaiveDate::parse_from_str) -/

/-- Length of the maximal digit prefix of a character list. -/
def digitsPrefixLen : List Char → Nat
  | [] => 0
  | c :: cs => if c.isDigit then digitsPrefixLen cs + 1 else 0

/-- Decimal value of a list of digit characters. -/
def digitsToNat (cs : List Char) : Nat :=
  cs.foldl (fun acc c => acc * 10 + (c.toNat - 48)) 0

/-- Parse a numeric field of at least minw and at most maxw digits,
returning the value and the remaining input (chrono scan::number). -/
def parseNum (minw maxw : Nat) (cs : List Char) : Option (Nat × List Char) :=
  let k := min (digitsPrefixLen cs) maxw
  if k < minw then none
  else some (digitsToNat (cs.take k), cs.drop k)

/-- Parse a numeric field of at least minw digits with no upper width
bound (chrono scan::number with max usize::MAX). -/
def parseNumAll (minw : Nat) (cs : List Char) : Option (Nat × List Char) :=
  let k := digitsPrefixLen cs
  if k < minw then none
  else some (digitsToNat (cs.take k), cs.drop k)

/-- Parse the signed year field of %Y. After an explicit '-' or '+' sign
chrono consumes an unbounded run of digits (scan::number(&s[1..], 1,
usize::MAX)); only the unsigned case is capped at the field width 4. -/
def parseYear (cs : List Char) : Option (Int × List Char) :=
  match cs with
  | '-' :: rest => (parseNumAll 1 rest).map (fun p => (-(p.1 : Int), p.2))
  | '+' :: rest => (parseNumAll 1 rest).map (fun p => ((p.1 : Int), p.2))
  | _ => (parseNum 1 4 cs).map (fun p => ((p.1 : Int), p.2))

/-- chrono NaiveDate::parse_from_str(buf, %Y-%m-%d): year, literal dash,
month, literal dash, day, end of input, then calendar validity. The final
condition also models the NaiveDate year range (the packed i32
representation limits years to i32::MIN >> 13 .. i32::MAX >> 13, i.e.
-262144 to 262143): Parsed::to_naive_date fails for a year outside it, so
the parse as a whole fails. -/
def parseYmd (str : String) : Option Date :=
  match parseYear str.data with
  | none => none
  | some (y, r1) =>
    match r1 with
    | '-' :: r2 =>
      match parseNum 1 2 r2 with
      | none => none
      | some (m, r3) =>
        match r3 with
        | '-' :: r4 =>
          match parseNum 1 2 r4 with
          | none => none
          | some (d, r5) =>
            if r5 = [] ∧ 1 ≤ m ∧ m ≤ 12 ∧ 1 ≤ d ∧ d ≤ daysInMonth y m ∧
                -262144 ≤ y ∧ y ≤ 262143 then
              some ⟨y, m, d⟩
            else none
        | _ => none
    | _ => none

/-! ## Todo (src/src/models/todo.rs) -/

structure Todo where
  id : Nat
  title : String
  description : String
  completed : Bool
  deleted : Bool
  created_at : Nat
  due_date : Option Date
  completed_at : Option Nat
deriving DecidableEq

/-- Todo::new; created_at is Utc::now(), passed here as the now argument. -/
def Todo.new (id : Nat) (title description : String) (due_date : Option Date)
    (now : Nat) : Todo :=
  { id := id, title := title, description := description, completed := false,
    deleted := false, created_at := now, due_date := due_date,
    completed_at := none }

/-- Todo::toggle_completed. -/
def Todo.toggle_completed (t : Todo) (now : Nat) : Todo :=
  let c := !t.completed
  { t with completed := c, completed_at := if c then some now else none }

/-- Todo::mark_deleted. -/
def Todo.mark_deleted (t : Todo) : Todo := { t with deleted := true }

/-! ## Ordering policy (App::sort_todos) -/

/-- The comparator closure passed to sort_by in App::sort_todos. -/
def cmpTodo (a b : Todo) : Ordering :=
  match a.due_date, b.due_date with
  | some da, some db =>
    match compareDate da db with
    | .eq => cmpNat a.created_at b.created_at
    | o => o
  | some _, none => .lt
  | none, some _ => .gt
  | none, none => cmpNat a.created_at b.created_at

/-- The non-strict order induced by the comparator: a may stay before b. -/
def todoLe (a b : Todo) : Bool := !(cmpTodo a b == .gt)

/-- Rust Vec::sort_by is a stable sort by the comparator; modelled as a
stable merge sort with the induced non-strict order. -/
def sortTodos (l : List Todo) : List Todo := l.mergeSort todoLe

/-- Propositional reading of todoLe, by cases on the two due dates. -/
def leProp (a b : Todo) : Prop :=
  match a.due_date, b.due_date with
  | some da, some db => dateLtP da db ∨ (da = db ∧ a.created_at ≤ b.created_at)
  | some _, none => True
  | none, some _ => False
  | none, none => a.created_at ≤ b.created_at

/-- The ordering contract of the spec, read between an earlier and a later
element of the sorted output. -/
def sortedRel (a b : Todo) : Prop :=
  (a.due_date = none → b.due_date = none) ∧
  (∀ da db, a.due_date = some da → b.due_date = some db →
    (dateLtP da db ∨ da = db) ∧ (da = db → a.created_at ≤ b.created_at)) ∧
  (a.due_date = none → b.due_date = none → a.created_at ≤ b.created_at)

/-! ## Modes, panels, tabs (src/src/app.rs) -/

inductive InputMode where
  | normal
  | editingTitle
  | editingDescription
  | editingDate
  | donePanel
  | deletePanel
deriving DecidableEq

inductive Panel where
  | list
  | calendar
  | task
deriving DecidableEq

inductive Tab where
  | tasks
  | stats
deriving DecidableEq

/-- Tab::next. -/
def Tab.next : Tab → Tab
  | .tasks => .stats
  | .stats => .tasks

/-- Tab::previous. -/
def Tab.previous : Tab → Tab
  | .tasks => .stats
  | .stats => .tasks

/-- Panel::next. -/
def Panel.next : Panel → Panel
  | .list => .calendar
  | .calendar => .task
  | .task => .list

/-! ## Application state (struct App) -/

structure AppState where
  should_quit : Bool
  current_date : Date
  todos : List Todo
  show_new_task_panel : Bool
  show_done_panel : Bool
  done_panel_yes_selected : Bool
  completing_todo_id : Option Nat
  show_delete_panel : Bool
  delete_panel_yes_selected : Bool
  deleting_todo_id : Option Nat
  input_mode : InputMode
  focused_panel : Panel
  selected_tab : Tab
  selected_todo_index : Option Nat
  selected_calendar_date : Option Date
  task_description_scroll : Nat
  edit_description_scroll : Nat
  editing_todo_id : Option Nat
  new_task_title : String
  new_task_description : String
  new_task_due_date : Option Date
  date_input_buffer : String
  persisted : List Todo
  save_count : Nat
deriving DecidableEq

/-- Update the first element satisfying p, as Rust iter_mut().find does. -/
def updateFirst (p : α → Bool) (f : α → α) : List α → List α
  | [] => []
  | x :: xs => if p x then f x :: xs else x :: updateFirst p f xs

/-- App::sort_todos (the sole mutation it performs on the state). -/
def AppState.sort_todos (s : AppState) : AppState :=
  { s with todos := sortTodos s.todos }

/-- App::new. The loaded argument is the result of storage.load_todos()
(the code maps a load failure to the empty list); today is
Local::now().date_naive(). -/
def app_new (loaded : List Todo) (today : Date) : AppState :=
  let todos := loaded.filter (fun t => !t.completed && !t.deleted)
  let selected := if todos.isEmpty then none else some 0
  AppState.sort_todos
    { should_quit := false, current_date := today, todos := todos,
      show_new_task_panel := false, show_done_panel := false,
      done_panel_yes_selected := true, completing_todo_id := none,
      show_delete_panel := false, delete_panel_yes_selected := true,
      deleting_todo_id := none, input_mode := .normal,
      focused_panel := .list, selected_tab := .tasks,
      selected_todo_index := selected, selected_calendar_date := none,
      task_description_scroll := 0, edit_description_scroll := 0,
      editing_todo_id := none, new_task_title := "",
      new_task_description := "", new_task_due_date := none,
      date_input_buffer := "", persisted := loaded, save_count := 0 }

/-- App::next_panel. -/
def AppState.next_panel (today : Date) (s : AppState) : AppState :=
  let s := { s with focused_panel := s.focused_panel.next }
  if s.focused_panel = .calendar ∧ s.selected_calendar_date = none then
    { s with selected_calendar_date := some today }
  else s

/-- App::next_tab. -/
def AppState.next_tab (s : AppState) : AppState :=
  { s with selected_tab := s.selected_tab.next }

/-- App::previous_tab. -/
def AppState.previous_tab (s : AppState) : AppState :=
  { s with selected_tab := s.selected_tab.previous }

/-- App::select_previous_todo. -/
def AppState.select_previous_todo (s : AppState) : AppState :=
  if s.todos.isEmpty then { s with selected_todo_index := none }
  else
    let i :=
      match s.selected_todo_index with
      | some i => if i > 0 then i - 1 else s.todos.length - 1
      | none => 0
    { s with selected_todo_index := some i, task_description_scroll := 0 }

/-- App::select_next_todo. -/
def AppState.select_next_todo (s : AppState) : AppState :=
  if s.todos.isEmpty then { s with selected_todo_index := none }
  else
    let i :=
      match s.selected_todo_index with
      | some i => if i < s.todos.length - 1 then i + 1 else 0
      | none => 0
    { s with selected_todo_index := some i, task_description_scroll := 0 }

/-- App::update_calendar_view. -/
def AppState.update_calendar_view (s : AppState) : AppState :=
  match s.selected_calendar_date with
  | none => s
  | some selected =>
    let currentYear := s.current_date.year
    let currentMonth := s.current_date.month
    let prevYear : Int := if currentMonth = 1 then currentYear - 1 else currentYear
    let prevMonth : Nat := if currentMonth = 1 then 12 else currentMonth - 1
    let nextYear : Int := if currentMonth = 12 then currentYear + 1 else currentYear
    let nextMonth : Nat := if currentMonth = 12 then 1 else currentMonth + 1
    if selected.year < prevYear ∨ (selected.year = prevYear ∧ selected.month < prevMonth) then
      { s with current_date :=
          if currentMonth = 1 then ⟨currentYear - 1, 12, 1⟩
          else ⟨currentYear, currentMonth - 1, 1⟩ }
    else if selected.year > nextYear ∨ (selected.year = nextYear ∧ selected.month > nextMonth) then
      { s with current_date :=
          if currentMonth = 12 then ⟨currentYear + 1, 1, 1⟩
          else ⟨currentYear, currentMonth + 1, 1⟩ }
    else s

/-- App::select_next_day; today is Local::now().date_naive(). -/
def AppState.select_next_day (today : Date) (s : AppState) : AppState :=
  match s.selected_calendar_date with
  | some date =>
    AppState.update_calendar_view { s with selected_calendar_date := some (plusDays 1 date) }
  | none => { s with selected_calendar_date := some today }

/-- App::select_previous_day. -/
def AppState.select_previous_day (today : Date) (s : AppState) : AppState :=
  match s.selected_calendar_date with
  | some date =>
    AppState.update_calendar_view { s with selected_calendar_date := some (minusDays 1 date) }
  | none => { s with selected_calendar_date := some today }

/-- App::select_day_above. -/
def AppState.select_day_above (today : Date) (s : AppState) : AppState :=
  match s.selected_calendar_date with
  | some date =>
    AppState.update_calendar_view { s with selected_calendar_date := some (minusDays 7 date) }
  | none => { s with selected_calendar_date := some today }

/-- App::select_day_below. -/
def AppState.select_day_below (today : Date) (s : AppState) : AppState :=
  match s.selected_calendar_date with
  | some date =>
    AppState.update_calendar_view { s with selected_calendar_date := some (plusDays 7 date) }
  | none => { s with selected_calendar_date := some today }

/-- App::reset_calendar_to_today. -/
def AppState.reset_calendar_to_today (today : Date) (s : AppState) : AppState :=
  { s with current_date := today, selected_calendar_date := some today }

/-- App::scroll_description_up. -/
def AppState.scroll_description_up (s : AppState) : AppState :=
  if s.task_description_scroll > 0 then
    { s with task_description_scroll := s.task_description_scroll - 1 }
  else s

/-- App::scroll_description_down. -/
def AppState.scroll_description_down (s : AppState) : AppState :=
  { s with task_description_scroll := s.task_description_scroll + 1 }

/-- App::scroll_edit_description_up (saturating_sub 3). -/
def AppState.scroll_edit_description_up (s : AppState) : AppState :=
  { s with edit_description_scroll := s.edit_description_scroll - 3 }

/-- App::scroll_edit_description_down (saturating_add 3). -/
def AppState.scroll_edit_description_down (s : AppState) : AppState :=
  { s with edit_description_scroll := s.edit_description_scroll + 3 }

/-- App::auto_scroll_to_cursor. -/
def AppState.auto_scroll_to_cursor (s : AppState) : AppState :=
  let visibleLines := 10
  let lineCount := (s.new_task_description.splitOn "\n").length
  if lineCount > visibleLines then
    { s with edit_description_scroll := lineCount - visibleLines + 1 }
  else
    { s with edit_description_scroll := 0 }

/-- App::get_all_todos: reload the full persisted collection. -/
def AppState.get_all_todos (s : AppState) : List Todo := s.persisted

/-- App::open_new_task_panel_with_date. -/
def AppState.open_new_task_panel_with_date (due_date : Option Date) (s : AppState) : AppState :=
  { s with
    show_new_task_panel := true
    input_mode := .editingTitle
    editing_todo_id := none
    new_task_title := ""
    new_task_description := ""
    new_task_due_date := due_date
    date_input_buffer :=
      match due_date with
      | some d => formatDate d
      | none => ""
    edit_description_scroll := 0 }

/-- App::open_new_task_panel. -/
def AppState.open_new_task_panel (s : AppState) : AppState :=
  s.open_new_task_panel_with_date none

/-- App::open_edit_task_panel. -/
def AppState.open_edit_task_panel (s : AppState) : AppState :=
  match s.selected_todo_index with
  | none => s
  | some index =>
    match s.todos[index]? with
    | none => s
    | some todo =>
      { s with
        show_new_task_panel := true
        input_mode := .editingTitle
        editing_todo_id := some todo.id
        new_task_title := todo.title
        new_task_description := todo.description
        new_task_due_date := todo.due_date
        date_input_buffer :=
          match todo.due_date with
          | some d => formatDate d
          | none => ""
        edit_description_scroll := 0 }

/-- App::close_new_task_panel. -/
def AppState.close_new_task_panel (s : AppState) : AppState :=
  { s with
    show_new_task_panel := false
    input_mode := .normal
    editing_todo_id := none
    new_task_title := ""
    new_task_description := ""
    new_task_due_date := none
    date_input_buffer := "" }

/-- App::open_done_panel. -/
def AppState.open_done_panel (s : AppState) : AppState :=
  match s.selected_todo_index with
  | none => s
  | some index =>
    match s.todos[index]? with
    | none => s
    | some todo =>
      { s with
        show_done_panel := true
        completing_todo_id := some todo.id
        done_panel_yes_selected := true
        input_mode := .donePanel }

/-- App::close_done_panel. -/
def AppState.close_done_panel (s : AppState) : AppState :=
  { s with
    show_done_panel := false
    completing_todo_id := none
    done_panel_yes_selected := true
    input_mode := .normal }

/-- App::toggle_done_button. -/
def AppState.toggle_done_button (s : AppState) : AppState :=
  { s with done_panel_yes_selected := !s.done_panel_yes_selected }

/-- App::mark_task_complete; now is Utc::now(). Loads the full persisted
collection, toggles the matching id, saves it back, drops the id from the
working collection and fixes up the selection. -/
def AppState.mark_task_complete (now : Nat) (s : AppState) : AppState :=
  let s1 :=
    match s.completing_todo_id with
    | none => s
    | some completingId =>
      let allTodos := s.persisted
      let allTodos :=
        updateFirst (fun (t : Todo) => t.id == completingId)
          (fun t => t.toggle_completed now) allTodos
      let s := { s with persisted := allTodos, save_count := s.save_count + 1 }
      let s := { s with todos := s.todos.filter (fun t => !(t.id == completingId)) }
      if s.todos.isEmpty then { s with selected_todo_index := none }
      else
        match s.selected_todo_index with
        | some index =>
          if index ≥ s.todos.length then
            { s with selected_todo_index := some (s.todos.length - 1) }
          else s
        | none => s
  s1.close_done_panel

/-- App::open_delete_panel. -/
def AppState.open_delete_panel (s : AppState) : AppState :=
  match s.selected_todo_index with
  | none => s
  | some index =>
    match s.todos[index]? with
    | none => s
    | some todo =>
      { s with
        show_delete_panel := true
        deleting_todo_id := some todo.id
        delete_panel_yes_selected := true
        input_mode := .deletePanel }

/-- App::close_delete_panel. -/
def AppState.close_delete_panel (s : AppState) : AppState :=
  { s with
    show_delete_panel := false
    deleting_todo_id := none
    delete_panel_yes_selected := true
    input_mode := .normal }

/-- App::toggle_delete_button. -/
def AppState.toggle_delete_button (s : AppState) : AppState :=
  { s with delete_panel_yes_selected := !s.delete_panel_yes_selected }

/-- App::mark_task_deleted: like mark_task_complete but sets the deleted
flag. -/
def AppState.mark_task_deleted (s : AppState) : AppState :=
  let s1 :=
    match s.deleting_todo_id with
    | none => s
    | some deletingId =>
      let allTodos := s.persisted
      let allTodos :=
        updateFirst (fun (t : Todo) => t.id == deletingId)
          (fun t => t.mark_deleted) allTodos
      let s := { s with persisted := allTodos, save_count := s.save_count + 1 }
      let s := { s with todos := s.todos.filter (fun t => !(t.id == deletingId)) }
      if s.todos.isEmpty then { s with selected_todo_index := none }
      else
        match s.selected_todo_index with
        | some index =>
          if index ≥ s.todos.length then
            { s with selected_todo_index := some (s.todos.length - 1) }
          else s
        | none => s
  s1.close_delete_panel

/-- App::save_new_task; now is Utc::now(). Note that the storage call at
the end saves self.todos, the working collection, overwriting the file. -/
def AppState.save_new_task (now : Nat) (s : AppState) : AppState :=
  let s1 :=
    if !s.new_task_title.isEmpty then
      let res : List Todo × Nat :=
        match s.editing_todo_id with
        | some editingId =>
          (updateFirst (fun (t : Todo) => t.id == editingId)
            (fun t =>
              { t with
                title := s.new_task_title
                description := s.new_task_description
                due_date := s.new_task_due_date }) s.todos,
           editingId)
        | none =>
          let newId := (s.todos.map (fun t => t.id)).foldl max 0 + 1
          (s.todos ++
            [Todo.new newId s.new_task_title s.new_task_description
              s.new_task_due_date now],
           newId)
      let todos := sortTodos res.1
      { s with
        todos := todos
        selected_todo_index := todos.findIdx? (fun t => t.id == res.2)
        persisted := todos
        save_count := s.save_count + 1 }
    else s
  s1.close_new_task_panel

/-! ## Keyboard events and dispatch (App::handle_key_event) -/

inductive KeyCode where
  | char (c : Char)
  | tab
  | esc
  | enter
  | backspace
  | up
  | down
  | left
  | right
  | pageUp
  | pageDown
  | other
deriving DecidableEq

structure KeyEvent where
  code : KeyCode
  shift : Bool
  ctrl : Bool
  alt : Bool
deriving DecidableEq

/-- App::handle_key_event: the pure dispatch table keyed by (mode, key).
today and now stand for the Local::now()/Utc::now() calls the reached
operations make. -/
def AppState.handle_key_event (today : Date) (now : Nat) (key : KeyEvent)
    (s : AppState) : AppState :=
  match s.input_mode with
  | .normal =>
    match key.code with
    | .char c =>
      if c = 'q' then { s with should_quit := true }
      else if c = '+' then s.open_new_task_panel
      else if c = 'd' then
        if s.focused_panel = .list ∧ s.selected_todo_index.isSome then
          s.open_done_panel
        else s
      else if c = '-' then
        if s.focused_panel = .list ∧ s.selected_todo_index.isSome then
          s.open_delete_panel
        else s
      else if c = 't' then
        if s.focused_panel = .calendar then s.reset_calendar_to_today today
        else s
      else s
    | .tab => s.next_panel today
    | .esc => { s with should_quit := true }
    | .left =>
      if key.shift then s.previous_tab
      else if s.focused_panel = .calendar then s.select_previous_day today
      else s
    | .right =>
      if key.shift then s.next_tab
      else if s.focused_panel = .calendar then s.select_next_day today
      else s
    | .up =>
      if s.focused_panel = .list then s.select_previous_todo
      else if s.focused_panel = .calendar then s.select_day_above today
      else if s.focused_panel = .task then s.scroll_description_up
      else s
    | .down =>
      if s.focused_panel = .list then s.select_next_todo
      else if s.focused_panel = .calendar then s.select_day_below today
      else if s.focused_panel = .task then s.scroll_description_down
      else s
    | .enter =>
      if s.focused_panel = .list ∧ s.selected_todo_index.isSome then
        s.open_edit_task_panel
      else if s.focused_panel = .calendar then
        s.open_new_task_panel_with_date s.selected_calendar_date
      else s
    | _ => s
  | .editingTitle =>
    match key.code with
    | .char c => { s with new_task_title := s.new_task_title.push c }
    | .backspace => { s with new_task_title := s.new_task_title.dropRight 1 }
    | .tab => { s with input_mode := .editingDescription }
    | .enter => s.save_new_task now
    | .esc => s.close_new_task_panel
    | _ => s
  | .editingDescription =>
    match key.code with
    | .char c =>
      if key.ctrl then
        if c = 'u' then s.scroll_edit_description_up
        else if c = 'd' then s.scroll_edit_description_down
        else
          AppState.auto_scroll_to_cursor
            { s with new_task_description := s.new_task_description.push c }
      else
        AppState.auto_scroll_to_cursor
          { s with new_task_description := s.new_task_description.push c }
    | .backspace =>
      AppState.auto_scroll_to_cursor
        { s with new_task_description := s.new_task_description.dropRight 1 }
    | .pageUp => s.scroll_edit_description_up
    | .pageDown => s.scroll_edit_description_down
    | .tab => { s with input_mode := .editingDate }
    | .enter =>
      if key.alt then
        AppState.auto_scroll_to_cursor
          { s with new_task_description := s.new_task_description.push '\n' }
      else s.save_new_task now
    | .esc => s.close_new_task_panel
    | _ => s
  | .editingDate =>
    match key.code with
    | .char c =>
      if c.isDigit ∨ c = '-' then
        { s with date_input_buffer := s.date_input_buffer.push c }
      else s
    | .backspace => { s with date_input_buffer := s.date_input_buffer.dropRight 1 }
    | .tab => { s with input_mode := .editingTitle }
    | .enter =>
      let s :=
        match parseYmd s.date_input_buffer with
        | some date => { s with new_task_due_date := some date }
        | none => s
      s.save_new_task now
    | .esc => s.close_new_task_panel
    | _ => s
  | .donePanel =>
    match key.code with
    | .tab => s.toggle_done_button
    | .left => s.toggle_done_button
    | .right => s.toggle_done_button
    | .enter =>
      if s.done_panel_yes_selected then s.mark_task_complete now
      else s.close_done_panel
    | .esc => s.close_done_panel
    | _ => s
  | .deletePanel =>
    match key.code with
    | .tab => s.toggle_delete_button
    | .left => s.toggle_delete_button
    | .right => s.toggle_delete_button
    | .enter =>
      if s.delete_panel_yes_selected then s.mark_task_deleted
      else s.close_delete_panel
    | .esc => s.close_delete_panel
    | _ => s

/-- Clock readings for one iteration of the event loop. -/
structure Env where
  today : Date
  now : Nat
deriving DecidableEq

/-- Run a sequence of keystrokes through the dispatch, each with the clock
readings of its loop iteration. -/
def runEvents (steps : List (Env × KeyEvent)) (s : AppState) : AppState :=
  steps.foldl (fun st p => AppState.handle_key_event p.1.today p.1.now p.2 st) s

/-- Plain key press with no modifiers. -/
def keyOf (c : KeyCode) : KeyEvent := ⟨c, false, false, false⟩

/-! ## Invariants under verification -/

/-- Selection validity: the selected index is none exactly on an empty
working collection and otherwise in range. -/
def SelInv (s : AppState) : Prop :=
  (s.selected_todo_index = none ↔ s.todos = []) ∧
  (∀ i, s.selected_todo_index = some i → i < s.todos.length)

/-- Strengthened invariant closed under every keystroke: selection
validity, plus the fact that an editing id always denotes a member of the
working collection and is only populated while an edit panel is open. -/
def StrongInv (s : AppState) : Prop :=
  SelInv s ∧
  (∀ eid, s.editing_todo_id = some eid → eid ∈ s.todos.map Todo.id) ∧
  ((s.input_mode = .normal ∨ s.input_mode = .donePanel ∨
      s.input_mode = .deletePanel) →
    s.editing_todo_id = none)

/-- Calendar window containment: the cursor is set, both dates are valid,
and the cursor's month lies in the anchor's previous/current/next month. -/
def CalInv (s : AppState) : Prop :=
  s.current_date.Valid ∧
  ∃ c, s.selected_calendar_date = some c ∧ c.Valid ∧
    monthIdx s.current_date - 1 ≤ monthIdx c ∧
    monthIdx c ≤ monthIdx s.current_date + 1

/-- The single-step calendar navigation moves of the spec. -/
inductive CalMove where
  | nextDay
  | previousDay
  | dayAbove
  | dayBelow
  | resetToToday
deriving DecidableEq

/-- Dispatch of one calendar move; today is that step's clock reading. -/
def applyCalMove (m : CalMove) (today : Date) (s : AppState) : AppState :=
  match m with
  | .nextDay => s.select_next_day today
  | .previousDay => s.select_previous_day today
  | .dayAbove => s.select_day_above today
  | .dayBelow => s.select_day_below today
  | .resetToToday => s.reset_calendar_to_today today

/-- Run a sequence of calendar moves. -/
def applyCalMoves : List (CalMove × Date) → AppState → AppState
  | [], s => s
  | p :: ps, s => applyCalMoves ps (applyCalMove p.1 p.2 s)

/-! ## Concrete scenario data for counterexamples and witnesses -/

/-- A fixed valid date standing for today in the concrete scenarios. -/
def baseDate : Date := ⟨2024, 6, 15⟩

/-- Fixed clock readings for the concrete scenarios. -/
def baseEnv : Env := ⟨baseDate, 0⟩

/-- One character keystroke in the concrete scenarios. -/
def press (c : Char) : Env × KeyEvent := (baseEnv, keyOf (.char c))

/-- Enter keystroke in the concrete scenarios. -/
def pressEnter : Env × KeyEvent := (baseEnv, keyOf .enter)

/-- Tab keystroke in the concrete scenarios. -/
def pressTab : Env × KeyEvent := (baseEnv, keyOf .tab)

/-- A stored task that is neither completed nor deleted. -/
def task1 : Todo := ⟨1, "x", "", false, false, 0, none, none⟩

/-- Keystrokes that soft-delete task1 through the confirm workflow. -/
def deleteSteps : List (Env × KeyEvent) := [press '-', pressEnter]

/-- deleteSteps followed by creating a fresh task titled b. -/
def deleteThenCreateSteps : List (Env × KeyEvent) :=
  [press '-', pressEnter, press '+', press 'b', pressEnter]

/-- Keystrokes that create a task titled a. -/
def createASteps : List (Env × KeyEvent) := [press '+', press 'a', pressEnter]

/-- Create a, confirm-complete it, then create c: a session with two
creations and no deletions. -/
def createCompleteCreateSteps : List (Env × KeyEvent) :=
  [press '+', press 'a', pressEnter, press 'd', pressEnter,
   press '+', press 'c', pressEnter]

/-- Open the new-task panel, type title a, move to the date sub-mode, type
2024-06-01 into the date buffer, then move back to the title sub-mode. -/
def titleSaveSteps : List (Env × KeyEvent) :=
  [press '+', press 'a', pressTab, pressTab, press '2', press '0',
   press '2', press '4', press '-', press '0', press '6', press '-',
   press '0', press '1', pressTab]

/-- titleSaveSteps followed by the Enter that saves from the title
sub-mode. -/
def titleSaveStepsEnter : List (Env × KeyEvent) := titleSaveSteps ++ [pressEnter]

/-- Two sample tasks that compare equal under the sort comparator. -/
def sampleEqA : Todo := ⟨1, "a", "", false, false, 0, none, none⟩

/-- Second sample task comparing equal to sampleEqA. -/
def sampleEqB : Todo := ⟨2, "b", "", false, false, 0, none, none⟩

/-- A plain application state with empty collection, Normal mode and all
panels closed, used as the base of the concrete sample states. -/
def blankState : AppState :=
  { should_quit := false, current_date := baseDate, todos := [],
    show_new_task_panel := false, show_done_panel := false,
    done_panel_yes_selected := true, completing_todo_id := none,
    show_delete_panel := false, delete_panel_yes_selected := true,
    deleting_todo_id := none, input_mode := .normal, focused_panel := .list,
    selected_tab := .tasks, selected_todo_index := none,
    selected_calendar_date := none, task_description_scroll := 0,
    edit_description_scroll := 0, editing_todo_id := none,
    new_task_title := "", new_task_description := "", new_task_due_date := none,
    date_input_buffer := "", persisted := [], save_count := 0 }

/-- A state in the middle of editing task1's fields, as reached by opening
the edit panel on task1 and typing. -/
def sampleEditState : AppState :=
  { blankState with
    todos := [task1]
    persisted := [task1]
    selected_todo_index := some 0
    input_mode := .editingTitle
    show_new_task_panel := true
    editing_todo_id := some 1
    new_task_title := "y"
    new_task_description := "desc" }

/-- A state in the date sub-mode with a parseable buffer. -/
def sampleDateState : AppState :=
  { blankState with
    input_mode := .editingDate
    show_new_task_panel := true
    new_task_title := "y"
    date_input_buffer := "2024-06-02" }

/-- A state sitting in the confirm-complete panel for task1. -/
def sampleDoneState : AppState :=
  { blankState with
    todos := [task1]
    persisted := [task1]
    selected_todo_index := some 0
    input_mode := .donePanel
    show_done_panel := true
    completing_todo_id := some 1 }

/-! ## Properties of the ordering policy -/

theorem cmpNat_ne_gt {a b : Nat} : cmpNat a b ≠ .gt ↔ a ≤ b := by
  unfold cmpNat; split_ifs <;> simp <;> omega

theorem compareDate_lt_iff {a b : Date} : compareDate a b = .lt ↔ dateLtP a b := by
  unfold compareDate dateLtP; split_ifs <;> simp <;> omega

theorem compareDate_gt_iff {a b : Date} : compareDate a b = .gt ↔ dateLtP b a := by
  unfold compareDate dateLtP; split_ifs <;> simp <;> omega

theorem compareDate_eq_iff {a b : Date} : compareDate a b = .eq ↔ a = b := by
  unfold compareDate
  cases a; cases b
  simp only [Date.mk.injEq]
  split_ifs <;> simp <;> omega

theorem dateLtP_trans {a b c : Date} (h1 : dateLtP a b) (h2 : dateLtP b c) :
    dateLtP a c := by
  cases a; cases b; cases c; unfold dateLtP at *; omega

theorem dateLtP_irrefl (a : Date) : ¬ dateLtP a a := by
  cases a; simp only [dateLtP]; omega

theorem todoLe_eq_true_iff {a b : Todo} : todoLe a b = true ↔ cmpTodo a b ≠ .gt := by
  unfold todoLe; cases h : cmpTodo a b <;> simp [h] <;> decide

theorem todoLe_iff {a b : Todo} : todoLe a b = true ↔ leProp a b := by
  rw [todoLe_eq_true_iff]
  unfold cmpTodo leProp
  cases ha : a.due_date with
  | none =>
    cases hb : b.due_date with
    | none => simpa using cmpNat_ne_gt
    | some db => simp
  | some da =>
    cases hb : b.due_date with
    | none => simp
    | some db =>
      cases hc : compareDate da db with
      | lt =>
        have hl := compareDate_lt_iff.mp hc
        simp only [hc, ne_eq]
        simp
        exact Or.inl hl
      | eq =>
        have hde : da = db := compareDate_eq_iff.mp hc
        subst hde
        have hirr := dateLtP_irrefl da
        simp [hc, cmpNat_ne_gt, hirr]
      | gt =>
        have hg := compareDate_gt_iff.mp hc
        have hne : ¬ (dateLtP da db ∨ (da = db ∧ a.created_at ≤ b.created_at)) := by
          rintro (h | ⟨rfl, -⟩)
          · cases da; cases db; simp only [dateLtP] at *; omega
          · exact dateLtP_irrefl da hg
        simp [hc, hne]

theorem leProp_trans {a b c : Todo} (h1 : leProp a b) (h2 : leProp b c) :
    leProp a c := by
  unfold leProp at *
  cases ha : a.due_date <;> cases hb : b.due_date <;> cases hc : c.due_date <;>
    simp_all
  · omega
  · rcases h1 with h1 | ⟨rfl, h1⟩ <;> rcases h2 with h2 | ⟨rfl, h2⟩
    · exact Or.inl (dateLtP_trans h1 h2)
    · exact Or.inl h1
    · exact Or.inl h2
    · exact Or.inr ⟨rfl, le_trans h1 h2⟩

theorem leProp_total (a b : Todo) : leProp a b ∨ leProp b a := by
  unfold leProp
  cases ha : a.due_date <;> cases hb : b.due_date <;> simp_all
  · omega
  · rename_i da db
    cases da; cases db
    simp only [dateLtP, Date.mk.injEq]
    omega

theorem todoLe_trans : ∀ (a b c : Todo),
    todoLe a b = true → todoLe b c = true → todoLe a c = true :=
  fun _ _ _ h1 h2 =>
    todoLe_iff.mpr (leProp_trans (todoLe_iff.mp h1) (todoLe_iff.mp h2))

theorem todoLe_total : ∀ (a b : Todo), (todoLe a b || todoLe b a) = true := by
  intro a b
  rcases leProp_total a b with h | h
  · simp [todoLe_iff.mpr h]
  · simp [todoLe_iff.mpr h]

theorem leProp_sortedRel {a b : Todo} (h : leProp a b) : sortedRel a b := by
  unfold leProp at h
  refine ⟨?_, ?_, ?_⟩
  · intro hna
    cases hb : b.due_date with
    | none => rfl
    | some db => simp only [hna, hb] at h
  · intro da db hda hdb
    simp only [hda, hdb] at h
    rcases h with h | ⟨rfl, h⟩
    · exact ⟨Or.inl h, fun hde => ((dateLtP_irrefl db) (hde ▸ h)).elim⟩
    · exact ⟨Or.inr rfl, fun _ => h⟩
  · intro hna hnb
    simp only [hna, hnb] at h
    exact h

/-- C4: after the ordering sort of the working collection, every task with
a due date precedes every task without one; among due-dated tasks due
dates are non-decreasing with ties broken by non-decreasing created_at;
among tasks without due dates created_at is non-decreasing; the output is
a permutation of the input; and the sort is stable: any two tasks that the
comparator ranks equal keep their prior relative order. -/
theorem sort_todos_ordering (l : List Todo) :
    (sortTodos l).Pairwise sortedRel ∧
    (sortTodos l).Perm l ∧
    ∀ a b, cmpTodo a b = .eq → [a, b].Sublist l → [a, b].Sublist (sortTodos l) := by
  refine ⟨?_, ?_, ?_⟩
  · exact (List.sorted_mergeSort todoLe_trans todoLe_total l).imp
      (fun h => leProp_sortedRel (todoLe_iff.mp h))
  · exact List.mergeSort_perm l todoLe
  · intro a b heq hsub
    apply List.pair_sublist_mergeSort todoLe_trans todoLe_total ?_ hsub
    rw [todoLe_eq_true_iff, heq]
    simp

/-- Witness for sort_todos_ordering at a concrete pair of tasks ranked
equal by the comparator. -/
theorem sort_todos_ordering_witness :
    [sampleEqA, sampleEqB].Sublist (sortTodos [sampleEqA, sampleEqB]) :=
  (sort_todos_ordering [sampleEqA, sampleEqB]).2.2 sampleEqA sampleEqB
    (by decide) (by decide)

/-! ## Frame lemmas: fields untouched by the operations -/

@[simp] theorem next_panel_should_quit (today : Date) (s : AppState) :
    (s.next_panel today).should_quit = s.should_quit := by
  unfold AppState.next_panel; dsimp only; split <;> rfl

@[simp] theorem next_panel_current_date (today : Date) (s : AppState) :
    (s.next_panel today).current_date = s.current_date := by
  unfold AppState.next_panel; dsimp only; split <;> rfl

@[simp] theorem select_previous_todo_should_quit (s : AppState) :
    s.select_previous_todo.should_quit = s.should_quit := by
  unfold AppState.select_previous_todo; dsimp only; split <;> rfl

@[simp] theorem select_previous_todo_current_date (s : AppState) :
    s.select_previous_todo.current_date = s.current_date := by
  unfold AppState.select_previous_todo; dsimp only; split <;> rfl

@[simp] theorem select_next_todo_should_quit (s : AppState) :
    s.select_next_todo.should_quit = s.should_quit := by
  unfold AppState.select_next_todo; dsimp only; split <;> rfl

@[simp] theorem select_next_todo_current_date (s : AppState) :
    s.select_next_todo.current_date = s.current_date := by
  unfold AppState.select_next_todo; dsimp only; split <;> rfl

@[simp] theorem update_calendar_view_should_quit (s : AppState) :
    s.update_calendar_view.should_quit = s.should_quit := by
  unfold AppState.update_calendar_view; dsimp only
  repeat' split
  all_goals rfl

@[simp] theorem select_next_day_should_quit (today : Date) (s : AppState) :
    (s.select_next_day today).should_quit = s.should_quit := by
  unfold AppState.select_next_day; split <;> simp

@[simp] theorem select_previous_day_should_quit (today : Date) (s : AppState) :
    (s.select_previous_day today).should_quit = s.should_quit := by
  unfold AppState.select_previous_day; split <;> simp

@[simp] theorem select_day_above_should_quit (today : Date) (s : AppState) :
    (s.select_day_above today).should_quit = s.should_quit := by
  unfold AppState.select_day_above; split <;> simp

@[simp] theorem select_day_below_should_quit (today : Date) (s : AppState) :
    (s.select_day_below today).should_quit = s.should_quit := by
  unfold AppState.select_day_below; split <;> simp

@[simp] theorem scroll_description_up_should_quit (s : AppState) :
    s.scroll_description_up.should_quit = s.should_quit := by
  unfold AppState.scroll_description_up; split <;> rfl

@[simp] theorem scroll_description_up_current_date (s : AppState) :
    s.scroll_description_up.current_date = s.current_date := by
  unfold AppState.scroll_description_up; split <;> rfl

@[simp] theorem auto_scroll_to_cursor_should_quit (s : AppState) :
    s.auto_scroll_to_cursor.should_quit = s.should_quit := by
  unfold AppState.auto_scroll_to_cursor; dsimp only; split <;> rfl

@[simp] theorem auto_scroll_to_cursor_current_date (s : AppState) :
    s.auto_scroll_to_cursor.current_date = s.current_date := by
  unfold AppState.auto_scroll_to_cursor; dsimp only; split <;> rfl

@[simp] theorem open_edit_task_panel_should_quit (s : AppState) :
    s.open_edit_task_panel.should_quit = s.should_quit := by
  unfold AppState.open_edit_task_panel; split
  · rfl
  · split <;> rfl

@[simp] theorem open_edit_task_panel_current_date (s : AppState) :
    s.open_edit_task_panel.current_date = s.current_date := by
  unfold AppState.open_edit_task_panel; split
  · rfl
  · split <;> rfl

@[simp] theorem open_done_panel_should_quit (s : AppState) :
    s.open_done_panel.should_quit = s.should_quit := by
  unfold AppState.open_done_panel; split
  · rfl
  · split <;> rfl

@[simp] theorem open_done_panel_current_date (s : AppState) :
    s.open_done_panel.current_date = s.current_date := by
  unfold AppState.open_done_panel; split
  · rfl
  · split <;> rfl

@[simp] theorem open_delete_panel_should_quit (s : AppState) :
    s.open_delete_panel.should_quit = s.should_quit := by
  unfold AppState.open_delete_panel; split
  · rfl
  · split <;> rfl

@[simp] theorem open_delete_panel_current_date (s : AppState) :
    s.open_delete_panel.current_date = s.current_date := by
  unfold AppState.open_delete_panel; split
  · rfl
  · split <;> rfl

@[simp] theorem mark_task_complete_should_quit (now : Nat) (s : AppState) :
    (s.mark_task_complete now).should_quit = s.should_quit := by
  unfold AppState.mark_task_complete AppState.close_done_panel
  dsimp only
  repeat' split
  all_goals rfl

@[simp] theorem mark_task_complete_current_date (now : Nat) (s : AppState) :
    (s.mark_task_complete now).current_date = s.current_date := by
  unfold AppState.mark_task_complete AppState.close_done_panel
  dsimp only
  repeat' split
  all_goals rfl

@[simp] theorem mark_task_deleted_should_quit (s : AppState) :
    s.mark_task_deleted.should_quit = s.should_quit := by
  unfold AppState.mark_task_deleted AppState.close_delete_panel
  dsimp only
  repeat' split
  all_goals rfl

@[simp] theorem mark_task_deleted_current_date (s : AppState) :
    s.mark_task_deleted.current_date = s.current_date := by
  unfold AppState.mark_task_deleted AppState.close_delete_panel
  dsimp only
  repeat' split
  all_goals rfl

@[simp] theorem save_new_task_should_quit (now : Nat) (s : AppState) :
    (s.save_new_task now).should_quit = s.should_quit := by
  unfold AppState.save_new_task AppState.close_new_task_panel
  dsimp only; split <;> rfl

@[simp] theorem save_new_task_current_date (now : Nat) (s : AppState) :
    (s.save_new_task now).current_date = s.current_date := by
  unfold AppState.save_new_task AppState.close_new_task_panel
  dsimp only; split <;> rfl

/-- C7: saving with an empty working title leaves the working collection
unchanged field-for-field, performs no storage call, discards the edit
buffer and returns the mode to Normal. -/
theorem empty_title_save_noop (now : Nat) (s : AppState)
    (h : s.new_task_title = "") :
    (s.save_new_task now).todos = s.todos ∧
    (s.save_new_task now).persisted = s.persisted ∧
    (s.save_new_task now).save_count = s.save_count ∧
    (s.save_new_task now).input_mode = .normal ∧
    (s.save_new_task now).show_new_task_panel = false ∧
    (s.save_new_task now).new_task_title = "" ∧
    (s.save_new_task now).new_task_description = "" ∧
    (s.save_new_task now).new_task_due_date = none ∧
    (s.save_new_task now).date_input_buffer = "" ∧
    (s.save_new_task now).editing_todo_id = none := by
  have he : s.new_task_title.isEmpty = true := by rw [h]; rfl
  unfold AppState.save_new_task AppState.close_new_task_panel
  rw [he]
  simp

/-- Witness: empty_title_save_noop applied to the freshly started
application state, whose working title is empty. -/
theorem empty_title_save_noop_witness :
    ((app_new [] baseDate).save_new_task 0).todos = (app_new [] baseDate).todos ∧
    ((app_new [] baseDate).save_new_task 0).persisted = (app_new [] baseDate).persisted ∧
    ((app_new [] baseDate).save_new_task 0).save_count = (app_new [] baseDate).save_count ∧
    ((app_new [] baseDate).save_new_task 0).input_mode = .normal ∧
    ((app_new [] baseDate).save_new_task 0).show_new_task_panel = false ∧
    ((app_new [] baseDate).save_new_task 0).new_task_title = "" ∧
    ((app_new [] baseDate).save_new_task 0).new_task_description = "" ∧
    ((app_new [] baseDate).save_new_task 0).new_task_due_date = none ∧
    ((app_new [] baseDate).save_new_task 0).date_input_buffer = "" ∧
    ((app_new [] baseDate).save_new_task 0).editing_todo_id = none :=
  empty_title_save_noop 0 (app_new [] baseDate) (by rfl)

/-- C10: pressing Escape or q in Normal mode sets the quit flag; in any
other mode no keystroke changes the quit flag, and Escape closes the
active panel and returns the mode to Normal, so the event loop can only
end from Normal mode. -/
theorem quit_only_from_normal (today : Date) (now : Nat) :
    (∀ (s : AppState) (sh ct al : Bool), s.input_mode = .normal →
      (AppState.handle_key_event today now ⟨.esc, sh, ct, al⟩ s).should_quit = true ∧
      (AppState.handle_key_event today now ⟨.char 'q', sh, ct, al⟩ s).should_quit = true) ∧
    (∀ (s : AppState) (k : KeyEvent), s.input_mode ≠ .normal →
      (AppState.handle_key_event today now k s).should_quit = s.should_quit) ∧
    (∀ (s : AppState) (sh ct al : Bool), s.input_mode ≠ .normal →
      (AppState.handle_key_event today now ⟨.esc, sh, ct, al⟩ s).input_mode = .normal ∧
      ((s.input_mode = .editingTitle ∨ s.input_mode = .editingDescription ∨
          s.input_mode = .editingDate) →
        (AppState.handle_key_event today now ⟨.esc, sh, ct, al⟩ s).show_new_task_panel = false) ∧
      (s.input_mode = .donePanel →
        (AppState.handle_key_event today now ⟨.esc, sh, ct, al⟩ s).show_done_panel = false) ∧
      (s.input_mode = .deletePanel →
        (AppState.handle_key_event today now ⟨.esc, sh, ct, al⟩ s).show_delete_panel = false)) := by
  refine ⟨?_, ?_, ?_⟩
  · intro s sh ct al h
    constructor
    · simp [AppState.handle_key_event, h]
    · simp [AppState.handle_key_event, h]
  · intro s k hm
    cases h : s.input_mode
    case normal => exact absurd h hm
    all_goals
      cases hc : k.code <;>
        simp only [AppState.handle_key_event, h, hc] <;>
        (repeat' split) <;>
        simp [AppState.close_new_task_panel, AppState.toggle_done_button,
          AppState.toggle_delete_button, AppState.close_done_panel,
          AppState.close_delete_panel, AppState.scroll_edit_description_up,
          AppState.scroll_edit_description_down]
  · intro s sh ct al hm
    cases h : s.input_mode
    case normal => exact absurd h hm
    all_goals
      refine ⟨?_, ?_, ?_, ?_⟩ <;>
        simp [AppState.handle_key_event, h, AppState.close_new_task_panel,
          AppState.close_done_panel, AppState.close_delete_panel]

/-- Witness: quit_only_from_normal applied in a concrete confirm-complete
state, where Escape leaves the quit flag alone. -/
theorem quit_only_from_normal_witness :
    (AppState.handle_key_event baseDate 0 (keyOf .esc) sampleDoneState).should_quit
      = sampleDoneState.should_quit :=
  (quit_only_from_normal baseDate 0).2.1 sampleDoneState (keyOf .esc) (by decide)

/-! ## Selection validity machinery -/

theorem length_sortTodos (l : List Todo) : (sortTodos l).length = l.length :=
  List.length_mergeSort l

theorem mem_sortTodos {a : Todo} {l : List Todo} : a ∈ sortTodos l ↔ a ∈ l :=
  (List.mergeSort_perm l todoLe).mem_iff

theorem updateFirst_map_id (p : Todo → Bool) (f : Todo → Todo)
    (hf : ∀ t, (f t).id = t.id) (l : List Todo) :
    (updateFirst p f l).map Todo.id = l.map Todo.id := by
  induction l with
  | nil => rfl
  | cons x xs ih =>
    unfold updateFirst
    split
    · simp [hf]
    · simp [ih]

theorem findIdx?_lt_length {α : Type} {p : α → Bool} {l : List α} {i : Nat}
    (h : l.findIdx? p = some i) : i < l.length :=
  (List.findIdx?_eq_some_iff_findIdx_eq.mp h).1

theorem findIdx?_isSome_of_mem {α : Type} {p : α → Bool} {l : List α} {a : α}
    (ha : a ∈ l) (hp : p a = true) : ∃ i, l.findIdx? p = some i := by
  have hs : (l.findIdx? p).isSome := by
    rw [List.findIdx?_isSome]
    exact List.any_eq_true.mpr ⟨a, ha, hp⟩
  exact Option.isSome_iff_exists.mp hs

theorem SelInv_of_some {s : AppState} (hsel : SelInv s) {index : Nat}
    (hi : s.selected_todo_index = some index) :
    (some index = (none : Option Nat) ↔ s.todos = []) ∧
    (∀ i, some index = some i → i < s.todos.length) := by
  obtain ⟨hiff, hlt⟩ := hsel
  constructor
  · constructor
    · intro hx; cases hx
    · intro hx
      rw [hiff.mpr hx] at hi
      cases hi
  · intro i hx
    injection hx with hx
    subst hx
    exact hlt index hi

theorem StrongInv_congr {s s' : AppState} (h : StrongInv s)
    (h1 : s'.todos = s.todos) (h2 : s'.selected_todo_index = s.selected_todo_index)
    (h3 : s'.editing_todo_id = s.editing_todo_id) (h4 : s'.input_mode = s.input_mode) :
    StrongInv s' := by
  unfold StrongInv SelInv at *
  rw [h1, h2, h3, h4]
  exact h

theorem StrongInv_next_panel (today : Date) {s : AppState} (h : StrongInv s) :
    StrongInv (s.next_panel today) := by
  refine StrongInv_congr h ?_ ?_ ?_ ?_ <;>
    (unfold AppState.next_panel; dsimp only; split <;> rfl)

theorem StrongInv_select_previous_todo {s : AppState} (h : StrongInv s) :
    StrongInv s.select_previous_todo := by
  obtain ⟨⟨hiff, hlt⟩, hedit, hmode⟩ := h
  unfold AppState.select_previous_todo
  dsimp only
  split
  · rename_i hemp
    have he : s.todos = [] := List.isEmpty_iff.mp hemp
    exact ⟨⟨by simp [he], fun i hi => by cases hi⟩, hedit, hmode⟩
  · rename_i hemp
    have hne : s.todos ≠ [] := by simpa [List.isEmpty_iff] using hemp
    have hpos : 0 < s.todos.length := List.length_pos.mpr hne
    refine ⟨⟨by simp [hne], ?_⟩, hedit, hmode⟩
    intro i hi
    injection hi with hi
    subst hi
    cases hj : s.selected_todo_index with
    | none => simpa [hj] using hpos
    | some j =>
      have hjl := hlt j hj
      simp only [hj]
      split <;> omega

theorem StrongInv_select_next_todo {s : AppState} (h : StrongInv s) :
    StrongInv s.select_next_todo := by
  obtain ⟨⟨hiff, hlt⟩, hedit, hmode⟩ := h
  unfold AppState.select_next_todo
  dsimp only
  split
  · rename_i hemp
    have he : s.todos = [] := List.isEmpty_iff.mp hemp
    exact ⟨⟨by simp [he], fun i hi => by cases hi⟩, hedit, hmode⟩
  · rename_i hemp
    have hne : s.todos ≠ [] := by simpa [List.isEmpty_iff] using hemp
    have hpos : 0 < s.todos.length := List.length_pos.mpr hne
    refine ⟨⟨by simp [hne], ?_⟩, hedit, hmode⟩
    intro i hi
    injection hi with hi
    subst hi
    cases hj : s.selected_todo_index with
    | none => simpa [hj] using hpos
    | some j =>
      have hjl := hlt j hj
      simp only [hj]
      split <;> omega

theorem StrongInv_open_new_task_panel_with_date (due : Option Date)
    {s : AppState} (h : StrongInv s) :
    StrongInv (s.open_new_task_panel_with_date due) :=
  ⟨h.1, fun _ he => Option.noConfusion he, fun _ => rfl⟩

theorem StrongInv_close_new_task_panel {s : AppState} (h : StrongInv s) :
    StrongInv s.close_new_task_panel :=
  ⟨h.1, fun _ he => Option.noConfusion he, fun _ => rfl⟩

theorem StrongInv_open_edit_task_panel {s : AppState} (h : StrongInv s) :
    StrongInv s.open_edit_task_panel := by
  obtain ⟨hsel, hedit, hmode⟩ := h
  unfold AppState.open_edit_task_panel
  cases hi : s.selected_todo_index with
  | none => exact ⟨hsel, hedit, hmode⟩
  | some index =>
    dsimp only
    cases ht : s.todos[index]? with
    | none => exact ⟨hsel, hedit, hmode⟩
    | some todo =>
      refine ⟨SelInv_of_some hsel hi, ?_, fun hx => by simp at hx⟩
      intro eid he
      obtain rfl : todo.id = eid := by simpa using he
      exact List.mem_map.mpr ⟨todo, List.getElem?_mem ht, rfl⟩

theorem StrongInv_open_done_panel {s : AppState} (h : StrongInv s)
    (hnone : s.editing_todo_id = none) : StrongInv s.open_done_panel := by
  unfold AppState.open_done_panel
  cases hi : s.selected_todo_index with
  | none => exact h
  | some index =>
    dsimp only
    cases ht : s.todos[index]? with
    | none => exact h
    | some todo => exact ⟨SelInv_of_some h.1 hi, h.2.1, fun _ => hnone⟩

theorem StrongInv_close_done_panel {s : AppState} (h : StrongInv s)
    (hnone : s.editing_todo_id = none) : StrongInv s.close_done_panel :=
  ⟨h.1, h.2.1, fun _ => hnone⟩

theorem StrongInv_open_delete_panel {s : AppState} (h : StrongInv s)
    (hnone : s.editing_todo_id = none) : StrongInv s.open_delete_panel := by
  unfold AppState.open_delete_panel
  cases hi : s.selected_todo_index with
  | none => exact h
  | some index =>
    dsimp only
    cases ht : s.todos[index]? with
    | none => exact h
    | some todo => exact ⟨SelInv_of_some h.1 hi, h.2.1, fun _ => hnone⟩

theorem StrongInv_close_delete_panel {s : AppState} (h : StrongInv s)
    (hnone : s.editing_todo_id = none) : StrongInv s.close_delete_panel :=
  ⟨h.1, h.2.1, fun _ => hnone⟩

theorem StrongInv_set_edit_mode {s : AppState} (h : StrongInv s) {m : InputMode}
    (hm : m = .editingTitle ∨ m = .editingDescription ∨ m = .editingDate) :
    StrongInv { s with input_mode := m } := by
  refine ⟨h.1, h.2.1, fun hx => ?_⟩
  rcases hm with rfl | rfl | rfl <;> rcases hx with hx | hx | hx <;> cases hx

theorem StrongInv_select_next_day (today : Date) {s : AppState} (h : StrongInv s) :
    StrongInv (s.select_next_day today) := by
  refine StrongInv_congr h ?_ ?_ ?_ ?_ <;>
    (unfold AppState.select_next_day AppState.update_calendar_view
     dsimp only
     repeat' split
     all_goals rfl)

theorem StrongInv_select_previous_day (today : Date) {s : AppState} (h : StrongInv s) :
    StrongInv (s.select_previous_day today) := by
  refine StrongInv_congr h ?_ ?_ ?_ ?_ <;>
    (unfold AppState.select_previous_day AppState.update_calendar_view
     dsimp only
     repeat' split
     all_goals rfl)

theorem StrongInv_select_day_above (today : Date) {s : AppState} (h : StrongInv s) :
    StrongInv (s.select_day_above today) := by
  refine StrongInv_congr h ?_ ?_ ?_ ?_ <;>
    (unfold AppState.select_day_above AppState.update_calendar_view
     dsimp only
     repeat' split
     all_goals rfl)

theorem StrongInv_select_day_below (today : Date) {s : AppState} (h : StrongInv s) :
    StrongInv (s.select_day_below today) := by
  refine StrongInv_congr h ?_ ?_ ?_ ?_ <;>
    (unfold AppState.select_day_below AppState.update_calendar_view
     dsimp only
     repeat' split
     all_goals rfl)

theorem StrongInv_scroll_description_up {s : AppState} (h : StrongInv s) :
    StrongInv s.scroll_description_up := by
  refine StrongInv_congr h ?_ ?_ ?_ ?_ <;>
    (unfold AppState.scroll_description_up
     repeat' split
     all_goals rfl)

theorem StrongInv_auto_scroll_to_cursor {s : AppState} (h : StrongInv s) :
    StrongInv s.auto_scroll_to_cursor := by
  refine StrongInv_congr h ?_ ?_ ?_ ?_ <;>
    (unfold AppState.auto_scroll_to_cursor
     dsimp only
     repeat' split
     all_goals rfl)

theorem StrongInv_mark_task_complete (now : Nat) {s : AppState} (h : StrongInv s)
    (hnone : s.editing_todo_id = none) : StrongInv (s.mark_task_complete now) := by
  obtain ⟨⟨hiff, hlt⟩, -, -⟩ := h
  unfold AppState.mark_task_complete AppState.close_done_panel
  dsimp only
  cases hcid : s.completing_todo_id with
  | none =>
    dsimp only
    refine ⟨⟨hiff, hlt⟩, fun eid he => ?_, fun _ => hnone⟩
    dsimp only at he
    rw [hnone] at he
    cases he
  | some cid =>
    dsimp only
    split
    · rename_i hemp
      refine ⟨⟨?_, ?_⟩, fun eid he => ?_, fun _ => hnone⟩
      · dsimp only
        simp [List.isEmpty_iff.mp hemp]
      · dsimp only
        intro i hi; cases hi
      · dsimp only at he
        rw [hnone] at he
        cases he
    · rename_i hemp
      have hne : s.todos.filter (fun t => !(t.id == cid)) ≠ [] := by
        simpa [List.isEmpty_iff] using hemp
      have hpos : 0 < (s.todos.filter (fun t => !(t.id == cid))).length :=
        List.length_pos.mpr hne
      split
      · rename_i index hidx
        split
        · rename_i hge
          refine ⟨⟨?_, ?_⟩, fun eid he => ?_, fun _ => hnone⟩
          · dsimp only
            constructor
            · intro hx; cases hx
            · intro hx; rw [hx] at hpos; cases hpos
          · dsimp only
            intro i hi; injection hi with hi; subst hi; omega
          · dsimp only at he
            rw [hnone] at he
            cases he
        · rename_i hge
          refine ⟨⟨?_, ?_⟩, fun eid he => ?_, fun _ => hnone⟩
          · dsimp only
            rw [hidx]
            constructor
            · intro hx; cases hx
            · intro hx; rw [hx] at hpos; cases hpos
          · dsimp only
            rw [hidx]
            intro i hi; injection hi with hi; subst hi; omega
          · dsimp only at he
            rw [hnone] at he
            cases he
      · rename_i hidxn
        exfalso
        have he0 : s.todos = [] := hiff.mp hidxn
        rw [he0] at hne
        exact hne rfl

theorem StrongInv_mark_task_deleted {s : AppState} (h : StrongInv s)
    (hnone : s.editing_todo_id = none) : StrongInv s.mark_task_deleted := by
  obtain ⟨⟨hiff, hlt⟩, -, -⟩ := h
  unfold AppState.mark_task_deleted AppState.close_delete_panel
  dsimp only
  cases hcid : s.deleting_todo_id with
  | none =>
    dsimp only
    refine ⟨⟨hiff, hlt⟩, fun eid he => ?_, fun _ => hnone⟩
    dsimp only at he
    rw [hnone] at he
    cases he
  | some cid =>
    dsimp only
    split
    · rename_i hemp
      refine ⟨⟨?_, ?_⟩, fun eid he => ?_, fun _ => hnone⟩
      · dsimp only
        simp [List.isEmpty_iff.mp hemp]
      · dsimp only
        intro i hi; cases hi
      · dsimp only at he
        rw [hnone] at he
        cases he
    · rename_i hemp
      have hne : s.todos.filter (fun t => !(t.id == cid)) ≠ [] := by
        simpa [List.isEmpty_iff] using hemp
      have hpos : 0 < (s.todos.filter (fun t => !(t.id == cid))).length :=
        List.length_pos.mpr hne
      split
      · rename_i index hidx
        split
        · rename_i hge
          refine ⟨⟨?_, ?_⟩, fun eid he => ?_, fun _ => hnone⟩
          · dsimp only
            constructor
            · intro hx; cases hx
            · intro hx; rw [hx] at hpos; cases hpos
          · dsimp only
            intro i hi; injection hi with hi; subst hi; omega
          · dsimp only at he
            rw [hnone] at he
            cases he
        · rename_i hge
          refine ⟨⟨?_, ?_⟩, fun eid he => ?_, fun _ => hnone⟩
          · dsimp only
            rw [hidx]
            constructor
            · intro hx; cases hx
            · intro hx; rw [hx] at hpos; cases hpos
          · dsimp only
            rw [hidx]
            intro i hi; injection hi with hi; subst hi; omega
          · dsimp only at he
            rw [hnone] at he
            cases he
      · rename_i hidxn
        exfalso
        have he0 : s.todos = [] := hiff.mp hidxn
        rw [he0] at hne
        exact hne rfl

theorem StrongInv_save_new_task (now : Nat) {s : AppState} (h : StrongInv s) :
    StrongInv (s.save_new_task now) := by
  obtain ⟨⟨hiff, hlt⟩, hedit, hmode⟩ := h
  unfold AppState.save_new_task AppState.close_new_task_panel
  dsimp only
  split
  · cases hed : s.editing_todo_id with
    | some eid =>
      dsimp only
      have hmem : eid ∈ s.todos.map Todo.id := hedit eid hed
      have hmapeq :
          (updateFirst (fun t => t.id == eid)
            (fun t =>
              { t with
                title := s.new_task_title
                description := s.new_task_description
                due_date := s.new_task_due_date }) s.todos).map Todo.id
            = s.todos.map Todo.id :=
        updateFirst_map_id (fun t => t.id == eid)
          (fun t =>
            { t with
              title := s.new_task_title
              description := s.new_task_description
              due_date := s.new_task_due_date })
          (fun t => rfl) s.todos
      have hmem2 : eid ∈
          (updateFirst (fun t => t.id == eid)
            (fun t =>
              { t with
                title := s.new_task_title
                description := s.new_task_description
                due_date := s.new_task_due_date }) s.todos).map Todo.id := by
        rw [hmapeq]; exact hmem
      obtain ⟨u, hu, huid⟩ := List.mem_map.mp hmem2
      have humem : u ∈ sortTodos
          (updateFirst (fun t => t.id == eid)
            (fun t =>
              { t with
                title := s.new_task_title
                description := s.new_task_description
                due_date := s.new_task_due_date }) s.todos) :=
        mem_sortTodos.mpr hu
      obtain ⟨i, hfind⟩ :=
        @findIdx?_isSome_of_mem Todo (fun t => t.id == eid) _ _ humem (by simp [huid])
      refine ⟨⟨?_, ?_⟩, fun e he => ?_, fun _ => rfl⟩
      · dsimp only
        constructor
        · intro hx; rw [hfind] at hx; cases hx
        · intro hx; rw [hx] at humem; cases humem
      · dsimp only
        intro i' hi'
        exact findIdx?_lt_length hi'
      · dsimp only at he
        cases he
    | none =>
      dsimp only
      have humem :
          Todo.new ((s.todos.map (fun t => t.id)).foldl max 0 + 1) s.new_task_title
            s.new_task_description s.new_task_due_date now ∈
          sortTodos (s.todos ++
            [Todo.new ((s.todos.map (fun t => t.id)).foldl max 0 + 1) s.new_task_title
              s.new_task_description s.new_task_due_date now]) :=
        mem_sortTodos.mpr (by simp)
      obtain ⟨i, hfind⟩ :=
        @findIdx?_isSome_of_mem Todo
          (fun t => t.id == (s.todos.map (fun t => t.id)).foldl max 0 + 1) _ _
          humem (by simp [Todo.new])
      refine ⟨⟨?_, ?_⟩, fun e he => ?_, fun _ => rfl⟩
      · dsimp only
        constructor
        · intro hx; rw [hfind] at hx; cases hx
        · intro hx; rw [hx] at humem; cases humem
      · dsimp only
        intro i' hi'
        exact findIdx?_lt_length hi'
      · dsimp only at he
        cases he
  · refine ⟨⟨hiff, hlt⟩, fun e he => ?_, fun _ => rfl⟩
    dsimp only at he
    cases he

theorem StrongInv_app_new (loaded : List Todo) (today : Date) :
    StrongInv (app_new loaded today) := by
  unfold app_new AppState.sort_todos
  dsimp only
  split
  · rename_i hemp
    have he0 : loaded.filter (fun t => !t.completed && !t.deleted) = [] :=
      List.isEmpty_iff.mp hemp
    refine ⟨⟨?_, ?_⟩, fun e he => Option.noConfusion he, fun _ => rfl⟩
    · simp [he0, sortTodos, List.mergeSort]
    · intro i hi; cases hi
  · rename_i hemp
    have hne : loaded.filter (fun t => !t.completed && !t.deleted) ≠ [] := by
      simpa [List.isEmpty_iff] using hemp
    have hlen := length_sortTodos (loaded.filter (fun t => !t.completed && !t.deleted))
    have hp := List.length_pos.mpr hne
    refine ⟨⟨?_, ?_⟩, fun e he => Option.noConfusion he, fun _ => rfl⟩
    · constructor
      · intro hx; cases hx
      · intro hx
        dsimp only at hx
        exfalso
        rw [hx] at hlen
        simp at hlen
        omega
    · intro i hi
      dsimp only at hi ⊢
      injection hi with hi
      subst hi
      rw [hlen]
      omega

theorem StrongInv_handle_key_event (today : Date) (now : Nat) (k : KeyEvent)
    {s : AppState} (h : StrongInv s) :
    StrongInv (AppState.handle_key_event today now k s) := by
  cases hm : s.input_mode with
  | normal =>
    have hnone : s.editing_todo_id = none := h.2.2 (Or.inl hm)
    cases hc : k.code with
    | char c =>
      simp only [AppState.handle_key_event, hm, hc]
      split_ifs
      · exact StrongInv_congr h rfl rfl rfl (by first | rfl | rw [hm])
      · exact StrongInv_open_new_task_panel_with_date none h
      · exact StrongInv_open_done_panel h hnone
      · exact h
      · exact StrongInv_open_delete_panel h hnone
      · exact h
      · exact StrongInv_congr h rfl rfl rfl (by first | rfl | rw [hm])
      · exact h
      · exact h
    | tab =>
      simp only [AppState.handle_key_event, hm, hc]
      exact StrongInv_next_panel today h
    | esc =>
      simp only [AppState.handle_key_event, hm, hc]
      exact StrongInv_congr h rfl rfl rfl (by first | rfl | rw [hm])
    | left =>
      simp only [AppState.handle_key_event, hm, hc]
      split_ifs
      · exact StrongInv_congr h rfl rfl rfl (by first | rfl | rw [hm])
      · exact StrongInv_select_previous_day today h
      · exact h
    | right =>
      simp only [AppState.handle_key_event, hm, hc]
      split_ifs
      · exact StrongInv_congr h rfl rfl rfl (by first | rfl | rw [hm])
      · exact StrongInv_select_next_day today h
      · exact h
    | up =>
      simp only [AppState.handle_key_event, hm, hc]
      split_ifs
      · exact StrongInv_select_previous_todo h
      · exact StrongInv_select_day_above today h
      · exact StrongInv_scroll_description_up h
      · exact h
    | down =>
      simp only [AppState.handle_key_event, hm, hc]
      split_ifs
      · exact StrongInv_select_next_todo h
      · exact StrongInv_select_day_below today h
      · exact StrongInv_congr h rfl rfl rfl (by first | rfl | rw [hm])
      · exact h
    | enter =>
      simp only [AppState.handle_key_event, hm, hc]
      split_ifs
      · exact StrongInv_open_edit_task_panel h
      · exact StrongInv_open_new_task_panel_with_date _ h
      · exact h
    | backspace => simpa only [AppState.handle_key_event, hm, hc] using h
    | pageUp => simpa only [AppState.handle_key_event, hm, hc] using h
    | pageDown => simpa only [AppState.handle_key_event, hm, hc] using h
    | other => simpa only [AppState.handle_key_event, hm, hc] using h
  | editingTitle =>
    cases hc : k.code with
    | char c =>
      simp only [AppState.handle_key_event, hm, hc]
      exact StrongInv_congr h rfl rfl rfl (by first | rfl | rw [hm])
    | backspace =>
      simp only [AppState.handle_key_event, hm, hc]
      exact StrongInv_congr h rfl rfl rfl (by first | rfl | rw [hm])
    | tab =>
      simp only [AppState.handle_key_event, hm, hc]
      exact StrongInv_set_edit_mode h (Or.inr (Or.inl rfl))
    | enter =>
      simp only [AppState.handle_key_event, hm, hc]
      exact StrongInv_save_new_task now h
    | esc =>
      simp only [AppState.handle_key_event, hm, hc]
      exact StrongInv_close_new_task_panel h
    | up => simpa only [AppState.handle_key_event, hm, hc] using h
    | down => simpa only [AppState.handle_key_event, hm, hc] using h
    | left => simpa only [AppState.handle_key_event, hm, hc] using h
    | right => simpa only [AppState.handle_key_event, hm, hc] using h
    | pageUp => simpa only [AppState.handle_key_event, hm, hc] using h
    | pageDown => simpa only [AppState.handle_key_event, hm, hc] using h
    | other => simpa only [AppState.handle_key_event, hm, hc] using h
  | editingDescription =>
    cases hc : k.code with
    | char c =>
      simp only [AppState.handle_key_event, hm, hc]
      split_ifs
      · exact StrongInv_congr h rfl rfl rfl (by first | rfl | rw [hm])
      · exact StrongInv_congr h rfl rfl rfl (by first | rfl | rw [hm])
      · exact StrongInv_auto_scroll_to_cursor (StrongInv_congr h rfl rfl rfl (by first | rfl | rw [hm]))
      · exact StrongInv_auto_scroll_to_cursor (StrongInv_congr h rfl rfl rfl (by first | rfl | rw [hm]))
    | backspace =>
      simp only [AppState.handle_key_event, hm, hc]
      exact StrongInv_auto_scroll_to_cursor (StrongInv_congr h rfl rfl rfl (by first | rfl | rw [hm]))
    | pageUp =>
      simp only [AppState.handle_key_event, hm, hc]
      exact StrongInv_congr h rfl rfl rfl (by first | rfl | rw [hm])
    | pageDown =>
      simp only [AppState.handle_key_event, hm, hc]
      exact StrongInv_congr h rfl rfl rfl (by first | rfl | rw [hm])
    | tab =>
      simp only [AppState.handle_key_event, hm, hc]
      exact StrongInv_set_edit_mode h (Or.inr (Or.inr rfl))
    | enter =>
      simp only [AppState.handle_key_event, hm, hc]
      split_ifs
      · exact StrongInv_auto_scroll_to_cursor (StrongInv_congr h rfl rfl rfl (by first | rfl | rw [hm]))
      · exact StrongInv_save_new_task now h
    | esc =>
      simp only [AppState.handle_key_event, hm, hc]
      exact StrongInv_close_new_task_panel h
    | up => simpa only [AppState.handle_key_event, hm, hc] using h
    | down => simpa only [AppState.handle_key_event, hm, hc] using h
    | left => simpa only [AppState.handle_key_event, hm, hc] using h
    | right => simpa only [AppState.handle_key_event, hm, hc] using h
    | other => simpa only [AppState.handle_key_event, hm, hc] using h
  | editingDate =>
    cases hc : k.code with
    | char c =>
      simp only [AppState.handle_key_event, hm, hc]
      split_ifs
      · exact StrongInv_congr h rfl rfl rfl (by first | rfl | rw [hm])
      · exact h
    | backspace =>
      simp only [AppState.handle_key_event, hm, hc]
      exact StrongInv_congr h rfl rfl rfl (by first | rfl | rw [hm])
    | tab =>
      simp only [AppState.handle_key_event, hm, hc]
      exact StrongInv_set_edit_mode h (Or.inl rfl)
    | enter =>
      simp only [AppState.handle_key_event, hm, hc]
      cases hp : parseYmd s.date_input_buffer with
      | some d =>
        dsimp only
        exact StrongInv_save_new_task now (StrongInv_congr h rfl rfl rfl (by first | rfl | rw [hm]))
      | none =>
        dsimp only
        exact StrongInv_save_new_task now h
    | esc =>
      simp only [AppState.handle_key_event, hm, hc]
      exact StrongInv_close_new_task_panel h
    | up => simpa only [AppState.handle_key_event, hm, hc] using h
    | down => simpa only [AppState.handle_key_event, hm, hc] using h
    | left => simpa only [AppState.handle_key_event, hm, hc] using h
    | right => simpa only [AppState.handle_key_event, hm, hc] using h
    | pageUp => simpa only [AppState.handle_key_event, hm, hc] using h
    | pageDown => simpa only [AppState.handle_key_event, hm, hc] using h
    | other => simpa only [AppState.handle_key_event, hm, hc] using h
  | donePanel =>
    have hnone : s.editing_todo_id = none := h.2.2 (Or.inr (Or.inl hm))
    cases hc : k.code with
    | tab =>
      simp only [AppState.handle_key_event, hm, hc]
      exact StrongInv_congr h rfl rfl rfl (by first | rfl | rw [hm])
    | left =>
      simp only [AppState.handle_key_event, hm, hc]
      exact StrongInv_congr h rfl rfl rfl (by first | rfl | rw [hm])
    | right =>
      simp only [AppState.handle_key_event, hm, hc]
      exact StrongInv_congr h rfl rfl rfl (by first | rfl | rw [hm])
    | enter =>
      simp only [AppState.handle_key_event, hm, hc]
      split_ifs
      · exact StrongInv_mark_task_complete now h hnone
      · exact StrongInv_close_done_panel h hnone
    | esc =>
      simp only [AppState.handle_key_event, hm, hc]
      exact StrongInv_close_done_panel h hnone
    | char c => simpa only [AppState.handle_key_event, hm, hc] using h
    | backspace => simpa only [AppState.handle_key_event, hm, hc] using h
    | up => simpa only [AppState.handle_key_event, hm, hc] using h
    | down => simpa only [AppState.handle_key_event, hm, hc] using h
    | pageUp => simpa only [AppState.handle_key_event, hm, hc] using h
    | pageDown => simpa only [AppState.handle_key_event, hm, hc] using h
    | other => simpa only [AppState.handle_key_event, hm, hc] using h
  | deletePanel =>
    have hnone : s.editing_todo_id = none := h.2.2 (Or.inr (Or.inr hm))
    cases hc : k.code with
    | tab =>
      simp only [AppState.handle_key_event, hm, hc]
      exact StrongInv_congr h rfl rfl rfl (by first | rfl | rw [hm])
    | left =>
      simp only [AppState.handle_key_event, hm, hc]
      exact StrongInv_congr h rfl rfl rfl (by first | rfl | rw [hm])
    | right =>
      simp only [AppState.handle_key_event, hm, hc]
      exact StrongInv_congr h rfl rfl rfl (by first | rfl | rw [hm])
    | enter =>
      simp only [AppState.handle_key_event, hm, hc]
      split_ifs
      · exact StrongInv_mark_task_deleted h hnone
      · exact StrongInv_close_delete_panel h hnone
    | esc =>
      simp only [AppState.handle_key_event, hm, hc]
      exact StrongInv_close_delete_panel h hnone
    | char c => simpa only [AppState.handle_key_event, hm, hc] using h
    | backspace => simpa only [AppState.handle_key_event, hm, hc] using h
    | up => simpa only [AppState.handle_key_event, hm, hc] using h
    | down => simpa only [AppState.handle_key_event, hm, hc] using h
    | pageUp => simpa only [AppState.handle_key_event, hm, hc] using h
    | pageDown => simpa only [AppState.handle_key_event, hm, hc] using h
    | other => simpa only [AppState.handle_key_event, hm, hc] using h

theorem StrongInv_runEvents (steps : List (Env × KeyEvent)) {s : AppState}
    (h : StrongInv s) : StrongInv (runEvents steps s) := by
  induction steps generalizing s with
  | nil => exact h
  | cons p ps ih =>
    exact ih (StrongInv_handle_key_event p.1.today p.1.now p.2 h)

/-- C5: starting from any loaded collection and applying any sequence of
keystrokes, the selected todo index is none exactly when the working
collection is empty, and otherwise is a valid index into it. -/
theorem selection_validity (loaded : List Todo) (today : Date)
    (steps : List (Env × KeyEvent)) :
    SelInv (runEvents steps (app_new loaded today)) :=
  (StrongInv_runEvents steps (StrongInv_app_new loaded today)).1

/-! ## Calendar arithmetic -/

theorem daysInMonth_bounds (y : Int) (m : Nat) (h1 : 1 ≤ m) (h2 : m ≤ 12) :
    28 ≤ daysInMonth y m ∧ daysInMonth y m ≤ 31 := by
  interval_cases m <;> simp [daysInMonth] <;> split <;> omega

theorem Valid_succDay {d : Date} (hd : d.Valid) : (succDay d).Valid := by
  obtain ⟨h1, h2, h3, h4⟩ := hd
  unfold succDay Date.Valid
  split_ifs with hlt hm
  · dsimp only; omega
  · dsimp only
    have := daysInMonth_bounds d.year (d.month + 1) (by omega) (by omega)
    omega
  · dsimp only
    have h31 : daysInMonth (d.year + 1) 1 = 31 := rfl
    omega

theorem Valid_predDay {d : Date} (hd : d.Valid) : (predDay d).Valid := by
  obtain ⟨h1, h2, h3, h4⟩ := hd
  unfold predDay Date.Valid
  split_ifs with hgt hm
  · dsimp only; omega
  · dsimp only
    have := daysInMonth_bounds d.year (d.month - 1) (by omega) (by omega)
    omega
  · dsimp only
    have h31 : daysInMonth (d.year - 1) 12 = 31 := rfl
    omega

theorem succDay_cases {d : Date} (hd : d.Valid) :
    (monthIdx (succDay d) = monthIdx d ∧ (succDay d).day = d.day + 1) ∨
    (monthIdx (succDay d) = monthIdx d + 1 ∧ (succDay d).day = 1 ∧ 28 ≤ d.day) := by
  obtain ⟨h1, h2, h3, h4⟩ := hd
  have hb := daysInMonth_bounds d.year d.month h1 h2
  unfold succDay
  split_ifs with hlt hm
  · exact Or.inl ⟨rfl, rfl⟩
  · refine Or.inr ⟨?_, rfl, by omega⟩
    simp only [monthIdx]
    push_cast
    omega
  · refine Or.inr ⟨?_, rfl, by omega⟩
    simp only [monthIdx]
    omega

theorem predDay_cases {d : Date} (hd : d.Valid) :
    (monthIdx (predDay d) = monthIdx d ∧ (predDay d).day + 1 = d.day) ∨
    (monthIdx (predDay d) = monthIdx d - 1 ∧ d.day = 1 ∧ 28 ≤ (predDay d).day) := by
  obtain ⟨h1, h2, h3, h4⟩ := hd
  unfold predDay
  split_ifs with hgt hm
  · refine Or.inl ⟨rfl, ?_⟩
    dsimp only
    omega
  · refine Or.inr ⟨?_, by omega, ?_⟩
    · simp only [monthIdx]
      omega
    · dsimp only
      exact (daysInMonth_bounds d.year (d.month - 1) (by omega) (by omega)).1
  · refine Or.inr ⟨?_, by omega, by norm_num⟩
    simp only [monthIdx]
    omega

theorem iter_succDay_bound {d : Date} (hd : d.Valid) :
    ∀ k, k ≤ 27 → (succDay^[k] d).Valid ∧
      (monthIdx (succDay^[k] d) = monthIdx d ∨
        (monthIdx (succDay^[k] d) = monthIdx d + 1 ∧ (succDay^[k] d).day ≤ k)) := by
  intro k
  induction k with
  | zero => intro _; exact ⟨hd, Or.inl rfl⟩
  | succ n ih =>
    intro hk
    obtain ⟨hv, hcase⟩ := ih (by omega)
    rw [Function.iterate_succ_apply']
    refine ⟨Valid_succDay hv, ?_⟩
    rcases succDay_cases hv with ⟨h1, h2⟩ | ⟨h1, h2, h3⟩
    · rcases hcase with hc | ⟨hc, hday⟩
      · exact Or.inl (by omega)
      · exact Or.inr ⟨by omega, by omega⟩
    · rcases hcase with hc | ⟨hc, hday⟩
      · exact Or.inr ⟨by omega, by omega⟩
      · exact absurd h3 (by omega)

theorem iter_predDay_bound {d : Date} (hd : d.Valid) :
    ∀ k, k ≤ 27 → (predDay^[k] d).Valid ∧
      (monthIdx (predDay^[k] d) = monthIdx d ∨
        (monthIdx (predDay^[k] d) = monthIdx d - 1 ∧ 29 - k ≤ (predDay^[k] d).day)) := by
  intro k
  induction k with
  | zero => intro _; exact ⟨hd, Or.inl rfl⟩
  | succ n ih =>
    intro hk
    obtain ⟨hv, hcase⟩ := ih (by omega)
    rw [Function.iterate_succ_apply']
    refine ⟨Valid_predDay hv, ?_⟩
    rcases predDay_cases hv with ⟨h1, h2⟩ | ⟨h1, h2, h3⟩
    · rcases hcase with hc | ⟨hc, hday⟩
      · exact Or.inl (by omega)
      · exact Or.inr ⟨by omega, by omega⟩
    · rcases hcase with hc | ⟨hc, hday⟩
      · exact Or.inr ⟨by omega, by omega⟩
      · exact absurd h2 (by omega)

theorem Valid_firstOfMonth (y : Int) (m : Nat) (h1 : 1 ≤ m) (h2 : m ≤ 12) :
    Date.Valid ⟨y, m, 1⟩ := by
  have := daysInMonth_bounds y m h1 h2
  unfold Date.Valid
  dsimp only
  omega

theorem update_calendar_view_contains {s : AppState} {c : Date}
    (hc : s.selected_calendar_date = some c) (hcv : c.Valid)
    (hav : s.current_date.Valid)
    (hlo : monthIdx s.current_date - 2 ≤ monthIdx c)
    (hhi : monthIdx c ≤ monthIdx s.current_date + 2) :
    CalInv s.update_calendar_view ∧
      monthIdx s.update_calendar_view.current_date - monthIdx s.current_date ≤ 1 ∧
      -1 ≤ monthIdx s.update_calendar_view.current_date - monthIdx s.current_date := by
  obtain ⟨ha1, ha2, ha3, ha4⟩ := hav
  obtain ⟨hc1, hc2, hc3, hc4⟩ := hcv
  unfold AppState.update_calendar_view
  rw [hc]
  dsimp only
  split_ifs <;>
    refine ⟨⟨?_, c, by first | rfl | exact hc, ⟨hc1, hc2, hc3, hc4⟩, ?_, ?_⟩, ?_, ?_⟩ <;>
    first
      | exact Valid_firstOfMonth _ _ (by omega) (by omega)
      | exact ⟨ha1, ha2, ha3, ha4⟩
      | (simp only [monthIdx] at *
         omega)
      | omega

theorem CalInv_applyCalMove (m : CalMove) (t : Date) (ht : t.Valid) {s : AppState}
    (h : CalInv s) :
    CalInv (applyCalMove m t s) ∧
      (m ≠ CalMove.resetToToday →
        monthIdx (applyCalMove m t s).current_date - monthIdx s.current_date ≤ 1 ∧
        -1 ≤ monthIdx (applyCalMove m t s).current_date - monthIdx s.current_date) := by
  obtain ⟨hav, c, hc, hcv, hlo, hhi⟩ := h
  cases m with
  | nextDay =>
    unfold applyCalMove AppState.select_next_day
    rw [hc]
    dsimp only
    obtain ⟨hbv, hbc⟩ := iter_succDay_bound hcv 1 (by omega)
    have h1 : monthIdx s.current_date - 2 ≤ monthIdx (plusDays 1 c) := by
      unfold plusDays
      rcases hbc with hh | ⟨hh, -⟩ <;> omega
    have h2 : monthIdx (plusDays 1 c) ≤ monthIdx s.current_date + 2 := by
      unfold plusDays
      rcases hbc with hh | ⟨hh, -⟩ <;> omega
    have hres := @update_calendar_view_contains
      { s with selected_calendar_date := some (plusDays 1 c) }
      (plusDays 1 c) rfl hbv hav h1 h2
    exact ⟨hres.1, fun _ => ⟨hres.2.1, hres.2.2⟩⟩
  | previousDay =>
    unfold applyCalMove AppState.select_previous_day
    rw [hc]
    dsimp only
    obtain ⟨hbv, hbc⟩ := iter_predDay_bound hcv 1 (by omega)
    have h1 : monthIdx s.current_date - 2 ≤ monthIdx (minusDays 1 c) := by
      unfold minusDays
      rcases hbc with hh | ⟨hh, -⟩ <;> omega
    have h2 : monthIdx (minusDays 1 c) ≤ monthIdx s.current_date + 2 := by
      unfold minusDays
      rcases hbc with hh | ⟨hh, -⟩ <;> omega
    have hres := @update_calendar_view_contains
      { s with selected_calendar_date := some (minusDays 1 c) }
      (minusDays 1 c) rfl hbv hav h1 h2
    exact ⟨hres.1, fun _ => ⟨hres.2.1, hres.2.2⟩⟩
  | dayAbove =>
    unfold applyCalMove AppState.select_day_above
    rw [hc]
    dsimp only
    obtain ⟨hbv, hbc⟩ := iter_predDay_bound hcv 7 (by omega)
    have h1 : monthIdx s.current_date - 2 ≤ monthIdx (minusDays 7 c) := by
      unfold minusDays
      rcases hbc with hh | ⟨hh, -⟩ <;> omega
    have h2 : monthIdx (minusDays 7 c) ≤ monthIdx s.current_date + 2 := by
      unfold minusDays
      rcases hbc with hh | ⟨hh, -⟩ <;> omega
    have hres := @update_calendar_view_contains
      { s with selected_calendar_date := some (minusDays 7 c) }
      (minusDays 7 c) rfl hbv hav h1 h2
    exact ⟨hres.1, fun _ => ⟨hres.2.1, hres.2.2⟩⟩
  | dayBelow =>
    unfold applyCalMove AppState.select_day_below
    rw [hc]
    dsimp only
    obtain ⟨hbv, hbc⟩ := iter_succDay_bound hcv 7 (by omega)
    have h1 : monthIdx s.current_date - 2 ≤ monthIdx (plusDays 7 c) := by
      unfold plusDays
      rcases hbc with hh | ⟨hh, -⟩ <;> omega
    have h2 : monthIdx (plusDays 7 c) ≤ monthIdx s.current_date + 2 := by
      unfold plusDays
      rcases hbc with hh | ⟨hh, -⟩ <;> omega
    have hres := @update_calendar_view_contains
      { s with selected_calendar_date := some (plusDays 7 c) }
      (plusDays 7 c) rfl hbv hav h1 h2
    exact ⟨hres.1, fun _ => ⟨hres.2.1, hres.2.2⟩⟩
  | resetToToday =>
    refine ⟨⟨ht, t, rfl, ht, ?_, ?_⟩, fun hne => absurd rfl hne⟩ <;>
      (unfold applyCalMove AppState.reset_calendar_to_today
       dsimp only
       omega)

/-- C6: starting with anchor and cursor both at a valid date, after any
sequence of single-step calendar moves (each with a valid clock reading)
the cursor's month stays within the anchor's previous, current or next
month, and any further directional move shifts the anchor by at most one
month while re-establishing containment. -/
theorem calendar_window_containment (s0 : AppState) (start : Date)
    (h0 : start.Valid) (moves : List (CalMove × Date))
    (hmv : ∀ p ∈ moves, p.2.Valid) :
    CalInv (applyCalMoves moves (s0.reset_calendar_to_today start)) ∧
    (∀ (m : CalMove) (t : Date), t.Valid → m ≠ CalMove.resetToToday →
      monthIdx (applyCalMove m t
          (applyCalMoves moves (s0.reset_calendar_to_today start))).current_date -
        monthIdx (applyCalMoves moves (s0.reset_calendar_to_today start)).current_date ≤ 1 ∧
      -1 ≤ monthIdx (applyCalMove m t
          (applyCalMoves moves (s0.reset_calendar_to_today start))).current_date -
        monthIdx (applyCalMoves moves (s0.reset_calendar_to_today start)).current_date) := by
  have hbase : CalInv (s0.reset_calendar_to_today start) := by
    refine ⟨h0, start, rfl, h0, ?_, ?_⟩ <;>
      (unfold AppState.reset_calendar_to_today
       dsimp only
       omega)
  have main : ∀ (ms : List (CalMove × Date)), (∀ p ∈ ms, p.2.Valid) →
      ∀ s, CalInv s → CalInv (applyCalMoves ms s) := by
    intro ms
    induction ms with
    | nil => intro _ s hs; exact hs
    | cons p ps ih =>
      intro hv s hs
      exact ih (fun q hq => hv q (List.mem_cons_of_mem _ hq)) _
        ((CalInv_applyCalMove p.1 p.2 (hv p (List.mem_cons_self _ _)) hs).1)
  have hfin := main moves hmv _ hbase
  refine ⟨hfin, fun m t htv hne => ?_⟩
  exact (CalInv_applyCalMove m t htv hfin).2 hne

/-- Witness: calendar_window_containment after a concrete week-down move
from a concrete start date. -/
theorem calendar_window_containment_witness :
    CalInv (applyCalMoves [(CalMove.dayBelow, baseDate)]
      ((app_new [] baseDate).reset_calendar_to_today baseDate)) :=
  (calendar_window_containment (app_new [] baseDate) baseDate (by decide)
    [(CalMove.dayBelow, baseDate)] (by decide)).1

/-- C9: a directional calendar move performed with the cursor unset, and
entering the calendar panel with the cursor unset, initialize the cursor
to today without shifting the anchor; and the anchor is altered only by
the window re-evaluation of a move with an already-set cursor or by the
jump-to-today action. -/
theorem calendar_cursor_unset_init (today : Date) (now : Nat) (s : AppState)
    (h : s.selected_calendar_date = none) :
    s.select_next_day today = { s with selected_calendar_date := some today } ∧
    s.select_previous_day today = { s with selected_calendar_date := some today } ∧
    s.select_day_above today = { s with selected_calendar_date := some today } ∧
    s.select_day_below today = { s with selected_calendar_date := some today } ∧
    (s.focused_panel = .list →
      s.next_panel today =
        { s with
          focused_panel := .calendar
          selected_calendar_date := some today }) ∧
    (∀ (k : KeyEvent) (s2 : AppState),
      (AppState.handle_key_event today now k s2).current_date ≠ s2.current_date →
      s2.input_mode = .normal ∧ s2.focused_panel = .calendar ∧
      (k.code = .char 't' ∨
        (s2.selected_calendar_date ≠ none ∧
          (k.code = .left ∨ k.code = .right ∨ k.code = .up ∨ k.code = .down)))) := by
  refine ⟨?_, ?_, ?_, ?_, ?_, ?_⟩
  · unfold AppState.select_next_day; rw [h]
  · unfold AppState.select_previous_day; rw [h]
  · unfold AppState.select_day_above; rw [h]
  · unfold AppState.select_day_below; rw [h]
  · intro hf
    unfold AppState.next_panel
    rw [hf]
    simp [Panel.next, h]
  · intro k s2 hne
    cases hm2 : s2.input_mode with
    | normal =>
      cases hc : k.code with
      | char c =>
        simp only [AppState.handle_key_event, hm2, hc] at hne
        split_ifs at hne with h1 h2 h3 h4 h5 h6 h7 h8
        · exact absurd rfl hne
        · exact absurd rfl hne
        · simp only [AppState.open_done_panel] at hne
          exfalso; apply hne
          (repeat' split) <;> rfl
        · exact absurd rfl hne
        · simp only [AppState.open_delete_panel] at hne
          exfalso; apply hne
          (repeat' split) <;> rfl
        · exact absurd rfl hne
        · refine ⟨rfl, ?_, Or.inl ?_⟩
          · assumption
          · rw [h7]
        · exact absurd rfl hne
        · exact absurd rfl hne
      | tab =>
        simp only [AppState.handle_key_event, hm2, hc] at hne
        simp only [AppState.next_panel] at hne
        exfalso; apply hne
        (repeat' split) <;> rfl
      | esc =>
        simp only [AppState.handle_key_event, hm2, hc] at hne
        exact absurd rfl hne
      | left =>
        simp only [AppState.handle_key_event, hm2, hc] at hne
        split_ifs at hne with h1 h2
        · exact absurd rfl hne
        · cases hcal : s2.selected_calendar_date with
          | none =>
            exfalso; apply hne
            unfold AppState.select_previous_day
            rw [hcal]
          | some c =>
            exact ⟨rfl, h2, Or.inr ⟨fun hx => Option.noConfusion hx, Or.inl rfl⟩⟩
        · exact absurd rfl hne
      | right =>
        simp only [AppState.handle_key_event, hm2, hc] at hne
        split_ifs at hne with h1 h2
        · exact absurd rfl hne
        · cases hcal : s2.selected_calendar_date with
          | none =>
            exfalso; apply hne
            unfold AppState.select_next_day
            rw [hcal]
          | some c =>
            exact ⟨rfl, h2, Or.inr ⟨fun hx => Option.noConfusion hx, Or.inr (Or.inl rfl)⟩⟩
        · exact absurd rfl hne
      | up =>
        simp only [AppState.handle_key_event, hm2, hc] at hne
        split_ifs at hne with h1 h2 h3
        · exact absurd (select_previous_todo_current_date s2) hne
        · cases hcal : s2.selected_calendar_date with
          | none =>
            exfalso; apply hne
            unfold AppState.select_day_above
            rw [hcal]
          | some c =>
            exact ⟨rfl, h2, Or.inr ⟨fun hx => Option.noConfusion hx, Or.inr (Or.inr (Or.inl rfl))⟩⟩
        · exact absurd (scroll_description_up_current_date s2) hne
        · exact absurd rfl hne
      | down =>
        simp only [AppState.handle_key_event, hm2, hc] at hne
        split_ifs at hne with h1 h2 h3
        · simp only [AppState.select_next_todo] at hne
          exfalso; apply hne
          (repeat' split) <;> rfl
        · cases hcal : s2.selected_calendar_date with
          | none =>
            exfalso; apply hne
            unfold AppState.select_day_below
            rw [hcal]
          | some c =>
            exact ⟨rfl, h2, Or.inr ⟨fun hx => Option.noConfusion hx, Or.inr (Or.inr (Or.inr rfl))⟩⟩
        · exact absurd rfl hne
        · exact absurd rfl hne
      | enter =>
        simp only [AppState.handle_key_event, hm2, hc] at hne
        split_ifs at hne with h1 h2
        · exact absurd (open_edit_task_panel_current_date s2) hne
        · exact absurd rfl hne
        · exact absurd rfl hne
      | backspace =>
        simp only [AppState.handle_key_event, hm2, hc] at hne
        exact absurd rfl hne
      | pageUp =>
        simp only [AppState.handle_key_event, hm2, hc] at hne
        exact absurd rfl hne
      | pageDown =>
        simp only [AppState.handle_key_event, hm2, hc] at hne
        exact absurd rfl hne
      | other =>
        simp only [AppState.handle_key_event, hm2, hc] at hne
        exact absurd rfl hne
    | editingTitle =>
      exfalso; apply hne
      cases hc : k.code <;>
        simp only [AppState.handle_key_event, hm2, hc] <;>
        (repeat' split) <;> (first | rfl | simp)
    | editingDescription =>
      exfalso; apply hne
      cases hc : k.code <;>
        simp only [AppState.handle_key_event, hm2, hc] <;>
        (repeat' split) <;> (first | rfl | simp)
    | editingDate =>
      exfalso; apply hne
      cases hc : k.code <;>
        simp only [AppState.handle_key_event, hm2, hc] <;>
        (repeat' split) <;> (first | rfl | simp)
    | donePanel =>
      exfalso; apply hne
      cases hc : k.code <;>
        simp only [AppState.handle_key_event, hm2, hc] <;>
        (repeat' split) <;> (first | rfl | simp)
    | deletePanel =>
      exfalso; apply hne
      cases hc : k.code <;>
        simp only [AppState.handle_key_event, hm2, hc] <;>
        (repeat' split) <;> (first | rfl | simp)

/-- Witness: a move with the cursor unset from the freshly started state
only initializes the cursor to today. -/
theorem calendar_cursor_unset_init_witness :
    (app_new [] baseDate).select_next_day baseDate =
      { app_new [] baseDate with selected_calendar_date := some baseDate } :=
  (calendar_cursor_unset_init baseDate 0 (app_new [] baseDate) rfl).1

/-! ## Frame effect of editing an existing task -/

theorem updateFirst_length {α : Type} (p : α → Bool) (f : α → α) (l : List α) :
    (updateFirst p f l).length = l.length := by
  induction l with
  | nil => rfl
  | cons x xs ih =>
    unfold updateFirst
    split <;> simp [ih]

theorem mem_updateFirst {α : Type} {p : α → Bool} {f : α → α} {l : List α} {u : α}
    (hu : u ∈ updateFirst p f l) : u ∈ l ∨ ∃ v ∈ l, p v = true ∧ u = f v := by
  induction l with
  | nil => cases hu
  | cons x xs ih =>
    unfold updateFirst at hu
    by_cases hp : p x
    · rw [if_pos hp] at hu
      rcases List.mem_cons.mp hu with rfl | hmem
      · exact Or.inr ⟨x, List.mem_cons_self _ _, hp, rfl⟩
      · exact Or.inl (List.mem_cons_of_mem _ hmem)
    · rw [if_neg hp] at hu
      rcases List.mem_cons.mp hu with rfl | hmem
      · exact Or.inl (List.mem_cons_self _ _)
      · rcases ih hmem with hmem2 | ⟨v, hv, hpv, rfl⟩
        · exact Or.inl (List.mem_cons_of_mem _ hmem2)
        · exact Or.inr ⟨v, List.mem_cons_of_mem _ hv, hpv, rfl⟩

theorem updateFirst_mem_of_mem {α : Type} {p : α → Bool} {f : α → α} {l : List α}
    {u : α} (hu : u ∈ l) (hp : p u = false) : u ∈ updateFirst p f l := by
  induction l with
  | nil => cases hu
  | cons x xs ih =>
    unfold updateFirst
    by_cases hpx : p x
    · rw [if_pos hpx]
      rcases List.mem_cons.mp hu with rfl | hmem
      · rw [hp] at hpx; cases hpx
      · exact List.mem_cons_of_mem _ hmem
    · rw [if_neg hpx]
      rcases List.mem_cons.mp hu with rfl | hmem
      · exact List.mem_cons_self _ _
      · exact List.mem_cons_of_mem _ (ih hmem)

theorem updateFirst_first_match {f : Todo → Todo} {l : List Todo} {t : Todo}
    {eid : Nat} (ht : t ∈ l) (hid : t.id = eid)
    (hnd : (l.map Todo.id).Nodup) :
    f t ∈ updateFirst (fun u => u.id == eid) f l := by
  induction l with
  | nil => cases ht
  | cons x xs ih =>
    rw [List.map_cons, List.nodup_cons] at hnd
    unfold updateFirst
    by_cases hpx : x.id == eid
    · rw [if_pos hpx]
      rcases List.mem_cons.mp ht with rfl | hmem
      · exact List.mem_cons_self _ _
      · exfalso
        have hxid : x.id = eid := by simpa using hpx
        have hmem2 : eid ∈ xs.map Todo.id := List.mem_map.mpr ⟨t, hmem, hid⟩
        exact hnd.1 (hxid ▸ hmem2)
    · rw [if_neg hpx]
      rcases List.mem_cons.mp ht with rfl | hmem
      · rw [hid] at hpx; simp at hpx
      · exact List.mem_cons_of_mem _ (ih hmem hnd.2)

/-- C8: saving an edit of an existing task id updates only that task's
title, description and due date, leaving its id, flags and timestamps and
every other task unchanged field-for-field; the collection is only
re-ordered (it stays a permutation of the pointwise-updated list and keeps
its length). -/
theorem edit_save_frame (now : Nat) (s : AppState) (eid : Nat) (t : Todo)
    (htitle : s.new_task_title ≠ "")
    (hedit : s.editing_todo_id = some eid)
    (ht : t ∈ s.todos) (hid : t.id = eid)
    (hnd : (s.todos.map Todo.id).Nodup) :
    (s.save_new_task now).todos.Perm
      (updateFirst (fun u => u.id == eid)
        (fun u =>
          { u with
            title := s.new_task_title
            description := s.new_task_description
            due_date := s.new_task_due_date }) s.todos) ∧
    { t with
      title := s.new_task_title
      description := s.new_task_description
      due_date := s.new_task_due_date } ∈ (s.save_new_task now).todos ∧
    (∀ u ∈ (s.save_new_task now).todos, u.id ≠ eid → u ∈ s.todos) ∧
    (∀ u ∈ s.todos, u.id ≠ eid → u ∈ (s.save_new_task now).todos) ∧
    (s.save_new_task now).todos.length = s.todos.length := by
  have hne : (!s.new_task_title.isEmpty) = true := by
    cases hh : s.new_task_title.isEmpty
    · rfl
    · exact absurd ((String.isEmpty_iff s.new_task_title).mp hh) htitle
  unfold AppState.save_new_task AppState.close_new_task_panel
  rw [hedit, if_pos hne]
  dsimp only
  refine ⟨?_, ?_, ?_, ?_, ?_⟩
  · exact List.mergeSort_perm _ _
  · exact mem_sortTodos.mpr (updateFirst_first_match ht hid hnd)
  · intro u hu hid2
    rcases mem_updateFirst (mem_sortTodos.mp hu) with hmem | ⟨v, hv, hpv, rfl⟩
    · exact hmem
    · exact absurd (by simpa using hpv) hid2
  · intro u hu hid2
    exact mem_sortTodos.mpr (updateFirst_mem_of_mem hu (by simpa using hid2))
  · rw [length_sortTodos, updateFirst_length]

/-- Witness: edit_save_frame applied to a concrete edit of task1. -/
theorem edit_save_frame_witness :
    { task1 with
      title := sampleEditState.new_task_title
      description := sampleEditState.new_task_description
      due_date := sampleEditState.new_task_due_date } ∈
      (sampleEditState.save_new_task 5).todos :=
  (edit_save_frame 5 sampleEditState 1 task1 (by decide) rfl (by decide) rfl
    (by decide)).2.1

/-! ## Persistence across saves, id assignment, date-buffer parsing -/

/-- C1, evaluated at the failing input: soft-deleting task1 through the
confirm workflow stores it with the deleted flag set and the completed
flag unchanged, but the very next save triggered by creating another task
overwrites the persisted collection with just the working collection,
erasing the soft-deleted task from storage (no task in the store carries
the deleted flag any more). -/
theorem soft_delete_erased_by_later_save :
    (runEvents deleteSteps (app_new [task1] baseDate)).persisted
      = [{ task1 with deleted := true }] ∧
    (runEvents deleteThenCreateSteps (app_new [task1] baseDate)).persisted
      = [Todo.new 1 "b" "" none 0] ∧
    (runEvents deleteThenCreateSteps (app_new [task1] baseDate)).persisted.all
      (fun u => !u.deleted) = true := by
  refine ⟨?_, ?_, ?_⟩ <;>
    simp [runEvents, deleteSteps, deleteThenCreateSteps, press, pressEnter, baseEnv,
      keyOf, baseDate, task1, app_new, AppState.sort_todos, sortTodos,
      List.mergeSort_nil, List.mergeSort_singleton, AppState.handle_key_event,
      AppState.open_delete_panel, AppState.close_delete_panel,
      AppState.mark_task_deleted, updateFirst, Todo.mark_deleted,
      AppState.open_new_task_panel, AppState.open_new_task_panel_with_date,
      AppState.close_new_task_panel, AppState.save_new_task, Todo.new,
      show ("".push 'b') = "b" from rfl, show "b".isEmpty = false from rfl]

/-- C2 is false as stated: in a session with two task creations and no
deletions, completing the first task in between makes the second creation
reuse id 1, so the created ids are not strictly increasing or unique
across the persisted lifetime. -/
theorem id_reused_after_complete :
    (runEvents createASteps (app_new [] baseDate)).todos.map Todo.id = [1] ∧
    (runEvents createCompleteCreateSteps (app_new [] baseDate)).todos.map Todo.id = [1] ∧
    (runEvents createCompleteCreateSteps (app_new [] baseDate)).todos.map Todo.title
      = ["c"] := by
  refine ⟨?_, ?_, ?_⟩ <;>
    simp [runEvents, createASteps, createCompleteCreateSteps, press, pressEnter, baseEnv,
      keyOf, baseDate, app_new, AppState.sort_todos, sortTodos,
      List.mergeSort_nil, List.mergeSort_singleton, AppState.handle_key_event,
      AppState.open_done_panel, AppState.close_done_panel,
      AppState.mark_task_complete, updateFirst, Todo.toggle_completed,
      AppState.open_new_task_panel, AppState.open_new_task_panel_with_date,
      AppState.close_new_task_panel, AppState.save_new_task, Todo.new,
      show ("".push 'a') = "a" from rfl, show ("".push 'c') = "c" from rfl,
      show "a".isEmpty = false from rfl, show "c".isEmpty = false from rfl]

theorem foldl_max_le {l : List Nat} {a : Nat} : a ≤ l.foldl max a := by
  induction l generalizing a with
  | nil => exact le_refl a
  | cons x xs ih => exact le_trans (le_max_left a x) ih

theorem mem_le_foldl_max {l : List Nat} {a x : Nat} (hx : x ∈ l) :
    x ≤ l.foldl max a := by
  induction l generalizing a with
  | nil => cases hx
  | cons y ys ih =>
    rcases List.mem_cons.mp hx with rfl | h
    · exact le_trans (le_max_right a x) foldl_max_le
    · exact ih h

/-- C2 (amended): a newly created task is assigned id one greater than the
maximum id of the working collection (1 when it is empty); that id is
strictly greater than every id currently in the working collection, so id
uniqueness is maintained within the working collection, and a session of
creations with no completions and no deletions yields strictly increasing
unique ids. -/
theorem new_task_id_assignment (now : Nat) (s : AppState)
    (htitle : s.new_task_title ≠ "") (hedit : s.editing_todo_id = none) :
    Todo.new ((s.todos.map (fun t => t.id)).foldl max 0 + 1) s.new_task_title
        s.new_task_description s.new_task_due_date now ∈ (s.save_new_task now).todos ∧
    (∀ u ∈ s.todos, u.id < (s.todos.map (fun t => t.id)).foldl max 0 + 1) ∧
    ((s.todos.map Todo.id).Nodup → ((s.save_new_task now).todos.map Todo.id).Nodup) ∧
    (s.save_new_task now).todos.length = s.todos.length + 1 := by
  have hne : (!s.new_task_title.isEmpty) = true := by
    cases hh : s.new_task_title.isEmpty
    · rfl
    · exact absurd ((String.isEmpty_iff s.new_task_title).mp hh) htitle
  unfold AppState.save_new_task AppState.close_new_task_panel
  rw [hedit, if_pos hne]
  dsimp only
  refine ⟨?_, ?_, ?_, ?_⟩
  · exact mem_sortTodos.mpr (by simp)
  · intro u hu
    have hm : u.id ∈ s.todos.map (fun t => t.id) := List.mem_map.mpr ⟨u, hu, rfl⟩
    have hle : u.id ≤ (s.todos.map (fun t => t.id)).foldl max 0 :=
      mem_le_foldl_max hm
    omega
  · intro hnd
    have hperm :
        ((sortTodos (s.todos ++
          [Todo.new ((s.todos.map (fun t => t.id)).foldl max 0 + 1) s.new_task_title
            s.new_task_description s.new_task_due_date now])).map Todo.id).Perm
        ((s.todos ++
          [Todo.new ((s.todos.map (fun t => t.id)).foldl max 0 + 1) s.new_task_title
            s.new_task_description s.new_task_due_date now]).map Todo.id) :=
      (List.mergeSort_perm _ todoLe).map Todo.id
    refine hperm.nodup_iff.mpr ?_
    rw [List.map_append, List.nodup_append]
    refine ⟨hnd, by simp, ?_⟩
    intro a ha hb
    simp [Todo.new] at hb
    have hmm : a ∈ s.todos.map (fun t => t.id) := by
      simpa using ha
    have hle : a ≤ (s.todos.map (fun t => t.id)).foldl max 0 :=
      mem_le_foldl_max hmm
    omega
  · rw [length_sortTodos]
    simp

/-- Witness: new_task_id_assignment in a concrete state with an empty
working collection assigns id 1. -/
theorem new_task_id_assignment_witness :
    Todo.new ((sampleDateState.todos.map (fun t => t.id)).foldl max 0 + 1)
        sampleDateState.new_task_title sampleDateState.new_task_description
        sampleDateState.new_task_due_date 0 ∈
      (sampleDateState.save_new_task 0).todos :=
  (new_task_id_assignment 0 sampleDateState (by decide) rfl).1

/-- C3 is false as stated: type title a, move to the date sub-mode, type
the parseable buffer 2024-06-01, move back to the title sub-mode and save
with Enter; the buffer is not parsed and the saved task keeps due date
none, even though the buffer parses successfully. -/
theorem date_buffer_ignored_on_title_save :
    (runEvents titleSaveSteps (app_new [] baseDate)).input_mode
      = InputMode.editingTitle ∧
    (runEvents titleSaveSteps (app_new [] baseDate)).date_input_buffer
      = "2024-06-01" ∧
    parseYmd "2024-06-01" = some ⟨2024, 6, 1⟩ ∧
    (runEvents titleSaveStepsEnter (app_new [] baseDate)).todos
      = [Todo.new 1 "a" "" none 0] := by
  refine ⟨?_, ?_, ?_, ?_⟩
  · simp [runEvents, titleSaveSteps, press, pressTab, baseEnv, keyOf, baseDate,
      app_new, AppState.sort_todos, sortTodos, List.mergeSort_nil,
      AppState.handle_key_event, AppState.open_new_task_panel,
      AppState.open_new_task_panel_with_date]
  · simp [runEvents, titleSaveSteps, press, pressTab, baseEnv, keyOf, baseDate,
      app_new, AppState.sort_todos, sortTodos, List.mergeSort_nil,
      AppState.handle_key_event, AppState.open_new_task_panel,
      AppState.open_new_task_panel_with_date] <;> rfl
  · rfl
  · simp [runEvents, titleSaveSteps, titleSaveStepsEnter, press, pressEnter, pressTab,
      baseEnv, keyOf, baseDate, app_new, AppState.sort_todos, sortTodos,
      List.mergeSort_nil, List.mergeSort_singleton, AppState.handle_key_event,
      AppState.open_new_task_panel, AppState.open_new_task_panel_with_date,
      AppState.close_new_task_panel, AppState.save_new_task, Todo.new,
      show ("".push 'a') = "a" from rfl, show "a".isEmpty = false from rfl]

/-- C3 (amended): only a save triggered from the date sub-mode parses the
buffer against the fixed format; parse success makes the parsed date the
due date, parse failure keeps the previously-set due date, and the save of
the other fields proceeds either way. -/
theorem date_parse_on_date_submode_save (today : Date) (now : Nat)
    (s : AppState) (sh ct al : Bool) (h : s.input_mode = .editingDate) :
    (∀ d, parseYmd s.date_input_buffer = some d →
      AppState.handle_key_event today now ⟨.enter, sh, ct, al⟩ s =
        AppState.save_new_task now { s with new_task_due_date := some d }) ∧
    (parseYmd s.date_input_buffer = none →
      AppState.handle_key_event today now ⟨.enter, sh, ct, al⟩ s =
        AppState.save_new_task now s) := by
  constructor
  · intro d hd
    simp only [AppState.handle_key_event, h, hd]
  · intro hd
    simp only [AppState.handle_key_event, h, hd]

/-- Witness: date_parse_on_date_submode_save on a concrete state whose
buffer parses to 2024-06-02. -/
theorem date_parse_on_date_submode_save_witness :
    AppState.handle_key_event baseDate 0 (keyOf .enter) sampleDateState =
      AppState.save_new_task 0
        { sampleDateState with new_task_due_date := some ⟨2024, 6, 2⟩ } :=
  (date_parse_on_date_submode_save baseDate 0 sampleDateState false false false
    rfl).1 ⟨2024, 6, 2⟩ (by rfl)

end TDui
